import Mathlib

/-
Shallow embedding of the opentaxjs rule engine (TypeScript) in Lean 4.

Conventions of the embedding:
- JavaScript numbers are modelled as rationals (ℚ); the arithmetic exercised by
  the engine (bracket formulas, add/subtract/multiply/divide, comparisons) is
  exact on the values the spec discusses, so no floating-point model is needed.
- JavaScript objects used as string-keyed maps are modelled as association
  lists with JS insertion-order semantics (overwrite in place, else append).
- Thrown exceptions are modelled with `Except`; the distinct error classes of
  the source (ExpressionParseError, ExpressionEvaluationError,
  RuleEvaluationError, OperationError, TableError, plain Error) are separate
  constructors because catch clauses in the source dispatch on the class.
-/

namespace OpenTax

/-- Value is the scalar value union `number | boolean | string`
(`VariableValue` in src/types/index.ts). -/
inductive Value where
  | num (q : ℚ)
  | bool (b : Bool)
  | str (s : String)
deriving DecidableEq, Repr

/-- jsTypeof mirrors the JavaScript `typeof` operator on scalar values. -/
def jsTypeof : Value → String
  | .num _ => "number"
  | .bool _ => "boolean"
  | .str _ => "string"

/-- VarMap models a JavaScript object used as a string-keyed map of scalar
values (`VariableMap` in src/types/index.ts). -/
def VarMap := List (String × Value)
deriving DecidableEq, Repr

/-- Key lookup, mirroring JS property access combined with the `in` check. -/
def VarMap.find? (m : VarMap) (k : String) : Option Value :=
  match m with
  | [] => none
  | (k₀, v₀) :: rest => if k₀ = k then some v₀ else VarMap.find? rest k

/-- Key membership, mirroring the JS `in` operator. -/
def VarMap.mem (m : VarMap) (k : String) : Bool :=
  (m.find? k).isSome

/-- Property assignment `m[k] = v` with JS insertion-order semantics:
overwrite an existing key in place, otherwise append. -/
def VarMap.insert (m : VarMap) (k : String) (v : Value) : VarMap :=
  match m with
  | [] => [(k, v)]
  | (k₀, v₀) :: rest =>
    if k₀ = k then (k₀, v) :: rest else (k₀, v₀) :: VarMap.insert rest k v

/-- EvalErr models the thrown error classes of the source, one constructor per
JavaScript error class that a catch clause can distinguish. -/
inductive EvalErr where
  | parseErr (msg : String)
  | exprErr (msg : String)
  | ruleErr (msg : String)
  | opErr (msg : String)
  | tableErr (msg : String)
  | jsErr (msg : String)
deriving DecidableEq, Repr

/-- Message accessor (the `.message` property of a JS Error). -/
def EvalErr.message : EvalErr → String
  | .parseErr m => m
  | .exprErr m => m
  | .ruleErr m => m
  | .opErr m => m
  | .tableErr m => m
  | .jsErr m => m

/-- Decidable equality for Except results, used to evaluate the embedding at
concrete inputs. -/
instance {α β : Type} [DecidableEq α] [DecidableEq β] :
    DecidableEq (Except α β) := fun a b =>
  match a, b with
  | .ok x, .ok y =>
    if h : x = y then isTrue (by rw [h]) else isFalse (by simp [h])
  | .ok _, .error _ => isFalse (by simp)
  | .error _, .ok _ => isFalse (by simp)
  | .error x, .error y =>
    if h : x = y then isTrue (by rw [h]) else isFalse (by simp [h])

/-- TableBracket is one row of a resolved progressive-rate table
(src/types/index.ts `TableBracket`); `max = none` models the JSON `null`
unbounded sentinel. -/
structure TableBracket where
  min : ℚ
  max : Option ℚ
  rate : ℚ
  base_tax : ℚ
deriving DecidableEq, Repr

/-- Table is a named ordered list of brackets (src/types/index.ts `Table`). -/
structure Table where
  name : String
  brackets : List TableBracket
deriving DecidableEq, Repr

/-- TableMap models the read-only `Record of string to Table` held by an
evaluation context. -/
def TableMap := List (String × Table)
deriving DecidableEq, Repr

/-- Lookup of a table by name. -/
def TableMap.find? (m : TableMap) (k : String) : Option Table :=
  match m with
  | [] => none
  | (k₀, v₀) :: rest => if k₀ = k then some v₀ else TableMap.find? rest k

/-! ## Expression AST (src/expression/parser.ts `ParsedExpression`)

The evaluator in src/expression/evaluator.ts additionally handles a
`string_literal` node kind, so the AST carries it even though the parser
bundled under src never produces it. -/

/-- Expr is the expression AST of src/expression/parser.ts. -/
inductive Expr where
  | numberLit (value : ℚ)
  | booleanLit (value : Bool)
  | stringLit (value : String)
  | inputVar (name : String)
  | constantVar (name : String)
  | calculatedVar (name : String)
  | call (name : String) (parameters : List Expr)

namespace Parser

/-- Letter test for the identifier pattern `[a-zA-Z]`. -/
def isLetter (c : Char) : Bool :=
  (('a' ≤ c) && (c ≤ 'z')) || (('A' ≤ c) && (c ≤ 'Z'))

/-- Character class `[a-zA-Z0-9_]` used by parseIdentifier. -/
def isIdentChar (c : Char) : Bool :=
  isLetter c || c.isDigit || c = '_'

/-- IDENTIFIER_REGEX of src/expression/identifiers.ts:
the pattern is `[a-zA-Z][a-zA-Z0-9_]*` anchored at both ends. -/
def isIdentifier (s : List Char) : Bool :=
  match s with
  | [] => false
  | c :: rest => isLetter c && rest.all isIdentChar

/-- Whitespace class used by skipWhitespace, modelling the JS regex class
`\s` on the characters that occur in expressions. -/
def isWs (c : Char) : Bool :=
  c = ' ' || c = '\t' || c = '\n' || c = '\r'

/-- String.prototype.trim applied in the parser constructor. -/
def trimChars (s : List Char) : List Char :=
  ((s.dropWhile isWs).reverse.dropWhile isWs).reverse

/-- NUMBER_REGEX of src/expression/parser.ts: `-?[0-9]+(\.[0-9]+)?`
anchored at both ends. -/
def isNumberToken (s : List Char) : Bool :=
  let body := if s.head? = some '-' then s.tail else s
  let intPart := body.takeWhile Char.isDigit
  let rest := body.drop intPart.length
  intPart ≠ [] &&
    (rest = [] ||
      (rest.head? = some '.' && rest.tail ≠ [] && rest.tail.all Char.isDigit))

/-- BOOLEAN_VALUES of src/expression/parser.ts. -/
def isBooleanToken (s : List Char) : Bool :=
  s = "true".toList || s = "false".toList

/-- Digit-string to natural number conversion used to give number tokens an
exact rational value. -/
def digitsToNat (ds : List Char) : Nat :=
  ds.foldl (fun a c => a * 10 + (c.toNat - 48)) 0

/-- parseFloat restricted to tokens accepted by NUMBER_REGEX; exact on ℚ. -/
def numberTokenValue (s : List Char) : ℚ :=
  let (sign, body) : ℚ × List Char :=
    if s.head? = some '-' then (-1, s.tail) else (1, s)
  let intPart := body.takeWhile Char.isDigit
  let rest := body.drop intPart.length
  let fracPart := match rest with
    | '.' :: fs => fs
    | _ => []
  sign * ((digitsToNat intPart : ℚ) +
    (digitsToNat fracPart : ℚ) / (10 : ℚ) ^ fracPart.length)

/-- Parser position state: the trimmed expression plus a cursor, mirroring the
private fields of class ExpressionParser. -/
structure PState where
  src : List Char
  pos : Nat
deriving Repr

/-- peek(length) returns the slice starting at the cursor. -/
def PState.peek (st : PState) (len : Nat := 1) : List Char :=
  (st.src.drop st.pos).take len

/-- peekAt(offset) returns one character or none past the end (the source
returns the empty string there). -/
def PState.peekAt (st : PState) (offset : Nat) : Option Char :=
  (st.src.drop (st.pos + offset)).head?

/-- advance(count), clamped at the end of the expression. -/
def PState.advance (st : PState) (count : Nat := 1) : PState :=
  { st with pos := Nat.min (st.pos + count) st.src.length }

/-- skipWhitespace advances the cursor past whitespace. -/
def PState.skipWs (st : PState) : PState :=
  { st with pos := st.pos + ((st.src.drop st.pos).takeWhile isWs).length }

/-- Helper for findParameterEnd: scans forward counting parentheses; stops at
a top-level `)` or `,`. Returns the offset scanned. -/
def findParamEndAux : List Char → Nat → Nat
  | [], _ => 0
  | c :: rest, parens =>
    if c = '(' then 1 + findParamEndAux rest (parens + 1)
    else if c = ')' then
      (if parens = 0 then 0 else 1 + findParamEndAux rest (parens - 1))
    else if c = ',' && parens = 0 then 0
    else 1 + findParamEndAux rest parens

/-- findParameterEnd of src/expression/parser.ts. -/
def PState.findParameterEnd (st : PState) : Nat :=
  st.pos + findParamEndAux (st.src.drop st.pos) 0

/-- Slice of the expression text between two positions. -/
def PState.slice (st : PState) (startPos endPos : Nat) : List Char :=
  (st.src.drop startPos).take (endPos - startPos)

/-- parseIdentifier: skips whitespace, takes the maximal `[a-zA-Z0-9_]*` run,
validates it against the identifier pattern and advances past it. -/
def PState.parseIdentifier (st : PState) : Except EvalErr (String × PState) :=
  let st := st.skipWs
  let tok := (st.src.drop st.pos).takeWhile isIdentChar
  if isIdentifier tok then
    .ok (String.mk tok, { st with pos := st.pos + tok.length })
  else
    .error (.parseErr ("Invalid identifier " ++ String.mk tok))

/-- peekIdentifier: like parseIdentifier but only reports whether a valid
identifier starts at the cursor; the whitespace skip is a real state change in
the source (this.skipWhitespace mutates the position), so the advanced state is
returned. -/
def PState.peekIdentifier (st : PState) : Option String × PState :=
  let st := st.skipWs
  let tok := (st.src.drop st.pos).takeWhile isIdentChar
  (if isIdentifier tok then some (String.mk tok) else none, st)

/-- expectEnd of src/expression/parser.ts. -/
def PState.expectEnd (st : PState) : Except EvalErr PState :=
  let st := st.skipWs
  if st.pos < st.src.length then
    .error (.parseErr "Unexpected content at end of expression")
  else
    .ok st

/-- expectChar of src/expression/parser.ts. -/
def PState.expectChar (st : PState) (expected : Char) : Except EvalErr PState :=
  let st := st.skipWs
  if st.peek = [expected] then .ok (st.advance 1)
  else .error (.parseErr "Expected a different character")

/-- looksLikeIdentifier of src/expression/parser.ts: the parameter text up to
the parameter end matches `[a-zA-Z][a-zA-Z0-9_-]*` (note the hyphen), and is
neither a number nor a boolean token. -/
def PState.looksLikeIdentifier (st : PState) : Bool :=
  let st := st.skipWs
  let text := trimChars (st.slice st.pos st.findParameterEnd)
  (match text with
   | [] => false
   | c :: rest => isLetter c && rest.all (fun d => isIdentChar d || d = '-'))
  && !isNumberToken text && !isBooleanToken text

/-- parseLiteral of src/expression/parser.ts: reads the whole remaining text
as a number or boolean literal. -/
def PState.parseLiteral (st : PState) : Except EvalErr (Expr × PState) :=
  let st := st.skipWs
  let remaining := st.src.drop st.pos
  if isNumberToken remaining then
    .ok (.numberLit (numberTokenValue remaining),
      { st with pos := st.src.length })
  else if isBooleanToken remaining then
    .ok (.booleanLit (remaining = "true".toList),
      { st with pos := st.src.length })
  else
    .error (.parseErr "Invalid literal value. Expected a number or boolean")

/-- parseParameterLiteral of src/expression/parser.ts: reads up to the next
`,` or `)` as a number or boolean literal. -/
def PState.parseParameterLiteral (st : PState) :
    Except EvalErr (Expr × PState) :=
  let st := st.skipWs
  let stop := st.pos +
    ((st.src.drop st.pos).takeWhile (fun c => c ≠ ',' && c ≠ ')')).length
  let text := trimChars (st.slice st.pos stop)
  if isNumberToken text then
    .ok (.numberLit (numberTokenValue text), { st with pos := stop })
  else if isBooleanToken text then
    .ok (.booleanLit (text = "true".toList), { st with pos := stop })
  else
    .error (.parseErr "Invalid literal value. Expected a number or boolean")

/-- parseVariableReference of src/expression/parser.ts (the top-level form,
which requires the reference to consume the whole expression). -/
def PState.parseVariableReference (st : PState) :
    Except EvalErr (Expr × PState) :=
  if st.peek 2 = "$$".toList then do
    let (ident, st) ← (st.advance 2).parseIdentifier
    let st ← st.expectEnd
    .ok (.constantVar ident, st)
  else if st.peek = "$".toList then do
    let (ident, st) ← (st.advance 1).parseIdentifier
    let st ← st.expectEnd
    .ok (.inputVar ident, st)
  else
    .error (.parseErr "Expected variable prefix")

/-- parseParameterVariable of src/expression/parser.ts (no end check). -/
def PState.parseParameterVariable (st : PState) :
    Except EvalErr (Expr × PState) :=
  if st.peek 2 = "$$".toList then do
    let (ident, st) ← (st.advance 2).parseIdentifier
    .ok (.constantVar ident, st)
  else if st.peek = "$".toList then do
    let (ident, st) ← (st.advance 1).parseIdentifier
    .ok (.inputVar ident, st)
  else
    .error (.parseErr "Expected variable prefix")

/-- parseCalculatedVariable of src/expression/parser.ts. -/
def PState.parseCalculatedVariable (st : PState) :
    Except EvalErr (Expr × PState) := do
  let (ident, st) ← st.parseIdentifier
  let st ← st.expectEnd
  .ok (.calculatedVar ident, st)

mutual

/-- parseFunctionCall of src/expression/parser.ts; `fuel` bounds the nesting
depth and is always sufficient when seeded with the expression length. -/
def parseFunctionCall (fuel : Nat) (st : PState) :
    Except EvalErr (Expr × PState) :=
  match fuel with
  | 0 => .error (.parseErr "Expression too deeply nested")
  | fuel + 1 => do
    let (functionName, st) ← st.parseIdentifier
    let st ← st.expectChar '('
    let st := st.skipWs
    if st.peek = ")".toList then do
      let st ← (st.advance 1).expectEnd
      .ok (.call functionName [], st)
    else do
      let (params, st) ← parseParamList fuel st []
      let st ← st.expectEnd
      .ok (.call functionName params, st)

/-- parseParameterFunction of src/expression/parser.ts (nested call, no end
check). -/
def parseParameterFunction (fuel : Nat) (st : PState) :
    Except EvalErr (Expr × PState) :=
  match fuel with
  | 0 => .error (.parseErr "Expression too deeply nested")
  | fuel + 1 => do
    let (functionName, st) ← st.parseIdentifier
    let st ← st.expectChar '('
    let st := st.skipWs
    if st.peek = ")".toList then
      .ok (.call functionName [], st.advance 1)
    else do
      let (params, st) ← parseParamList fuel st []
      .ok (.call functionName params, st)

/-- The shared parameter-list loop of parseFunctionCall and
parseParameterFunction: parse a parameter, then expect `)` (stop) or `,`
(continue). -/
def parseParamList (fuel : Nat) (st : PState) (acc : List Expr) :
    Except EvalErr (List Expr × PState) :=
  match fuel with
  | 0 => .error (.parseErr "Expression too deeply nested")
  | fuel + 1 => do
    let st := st.skipWs
    let (param, st) ← parseParameter fuel st
    let st := st.skipWs
    if st.peek = ")".toList then
      .ok (acc ++ [param], st.advance 1)
    else if st.peek = ",".toList then
      parseParamList fuel (st.advance 1) (acc ++ [param])
    else
      .error (.parseErr "Expected comma or closing parenthesis in parameter list")

/-- parseParameter of src/expression/parser.ts. -/
def parseParameter (fuel : Nat) (st : PState) :
    Except EvalErr (Expr × PState) :=
  match fuel with
  | 0 => .error (.parseErr "Expression too deeply nested")
  | fuel + 1 =>
    let st := st.skipWs
    if st.peek = "$".toList then st.parseParameterVariable
    else
      let paramText := trimChars (st.slice st.pos st.findParameterEnd)
      if isBooleanToken paramText then st.parseParameterLiteral
      else
        match st.peekIdentifier with
        | (some ident, st) =>
          if st.peekAt ident.length = some '(' then
            parseParameterFunction fuel st
          else do
            let (name, st) ← st.parseIdentifier
            .ok (.calculatedVar name, st)
        | (none, st) =>
          if st.looksLikeIdentifier then do
            let (name, st) ← st.parseIdentifier
            .ok (.calculatedVar name, st)
          else
            st.parseParameterLiteral

end

/-- parseExpression of src/expression/parser.ts (dispatch on the first
token). -/
def parseExpression (st : PState) : Except EvalErr (Expr × PState) :=
  let st := st.skipWs
  if st.src.length ≤ st.pos then
    .error (.parseErr "Empty expression is not allowed")
  else if st.peek = "$".toList then
    st.parseVariableReference
  else
    let remaining := trimChars (st.src.drop st.pos)
    if isBooleanToken remaining then st.parseLiteral
    else
      match st.peekIdentifier with
      | (some ident, st) =>
        if st.peekAt ident.length = some '(' then
          parseFunctionCall (st.src.length + 1) st
        else
          st.parseCalculatedVariable
      | (none, st) => st.parseLiteral

/-- ExpressionParser.parse: trims the input and parses one expression. -/
def parse (expression : String) : Except EvalErr Expr := do
  let st : PState := { src := trimChars expression.toList, pos := 0 }
  let (e, _) ← parseExpression st
  .ok e

end Parser

/-! ## Symbol registry (src/symbol/registry.ts) -/

/-- SymbolType of SymbolInfo.symbolType. -/
inductive SymbolType where
  | function
  | input_variable
  | constant_variable
  | calculated_variable
deriving DecidableEq, Repr

/-- SymbolSource of SymbolInfo.source. -/
inductive SymbolSource where
  | builtin
  | context
deriving DecidableEq, Repr

/-- SymbolInfo of src/symbol/registry.ts; valueType is the `typeof` string of
the registered value (functions carry none). -/
structure SymbolInfo where
  name : String
  symbolType : SymbolType
  source : SymbolSource
  valueType : Option String
deriving DecidableEq, Repr

/-- Registry models the private `symbols` map of class SymbolRegistry. -/
def Registry := List (String × SymbolInfo)
deriving DecidableEq, Repr

/-- Map lookup on the registry. -/
def Registry.get? (reg : Registry) (k : String) : Option SymbolInfo :=
  match reg with
  | [] => none
  | (k₀, v₀) :: rest => if k₀ = k then some v₀ else Registry.get? rest k

/-- Map.set on the registry (overwrite in place, else append). -/
def Registry.set (reg : Registry) (k : String) (v : SymbolInfo) : Registry :=
  match reg with
  | [] => [(k, v)]
  | (k₀, v₀) :: rest =>
    if k₀ = k then (k₀, v) :: rest else (k₀, v₀) :: Registry.set rest k v

/-- addSymbol of src/symbol/registry.ts: rejects function-versus-variable kind
conflicts and redefinition of a built-in function; same-kind variable entries
overwrite (shadowing). -/
def Registry.addSymbol (reg : Registry) (name : String)
    (symbolType : SymbolType) (source : SymbolSource)
    (valueType : Option String) : Except EvalErr Registry := do
  match reg.get? name with
  | some existing =>
    if (decide (existing.symbolType = .function)) ≠
        (decide (symbolType = .function)) then
      .error (.jsErr ("Symbol conflict: " ++ name ++
        " is already defined under a different kind"))
    else if existing.source = .builtin ∧ existing.symbolType = .function then
      .error (.jsErr ("Cannot redefine built-in function " ++ name))
    else
      .ok (reg.set name
        { name := name, symbolType := symbolType, source := source,
          valueType :=
            if symbolType = .function then none
            else some (valueType.getD "unknown") })
  | none =>
    .ok (reg.set name
      { name := name, symbolType := symbolType, source := source,
        valueType :=
          if symbolType = .function then none
          else some (valueType.getD "unknown") })

/-! ## Built-in function library (src/expression/builtins.ts) -/

/-- ParameterSchema of src/symbol/registry.ts. -/
structure ParamSchema where
  name : Option String := none
  type : String
  itemsType : Option String := none
  required : Bool := false
deriving DecidableEq, Repr

/-- FunctionContext passed to built-in callbacks (carries the optional table
map of the variable context). -/
structure FunctionContext where
  tables : Option TableMap := none

/-- ArgVal is one entry of the evaluated-arguments record handed to a
callback: a scalar, or the collected array of a variadic parameter. -/
inductive ArgVal where
  | scalar (v : Value)
  | array (vs : List Value)
deriving DecidableEq, Repr

/-- ArgMap is the evaluated-arguments record. -/
def ArgMap := List (String × ArgVal)
deriving DecidableEq, Repr

/-- Record lookup on the argument map. -/
def ArgMap.get? (m : ArgMap) (k : String) : Option ArgVal :=
  match m with
  | [] => none
  | (k₀, v₀) :: rest => if k₀ = k then some v₀ else ArgMap.get? rest k

/-- Record assignment on the argument map. -/
def ArgMap.set (m : ArgMap) (k : String) (v : ArgVal) : ArgMap :=
  match m with
  | [] => [(k, v)]
  | (k₀, v₀) :: rest =>
    if k₀ = k then (k₀, v) :: rest else (k₀, v₀) :: ArgMap.set rest k v

/-- jsTypeof lifted to argument entries: JS arrays have typeof `object`. -/
def ArgVal.jsTypeofArg : ArgVal → String
  | .scalar v => jsTypeof v
  | .array _ => "object"

/-- FunctionDefinition of src/symbol/registry.ts: a parameter schema plus a
callback over the evaluated-arguments record. -/
structure FunctionDefinition where
  parameters : List ParamSchema
  callback : ArgMap → FunctionContext → Except EvalErr Value

/-- Number.MAX_SAFE_INTEGER, used by the built-in lookup as the stand-in for
an unbounded bracket max. -/
def MAX_SAFE_INTEGER : ℚ := 9007199254740991

/-- Math.abs on the rational model. -/
def jsAbs (q : ℚ) : ℚ := |q|

/-- Math.round on the rational model: round half toward positive infinity. -/
def jsRound (q : ℚ) : ℚ := (⌊q + 1/2⌋ : ℤ)

/-- Callback of the built-in `diff`: absolute difference of two numbers. The
argument shapes are guaranteed by parameter validation, which runs before the
callback; other shapes model the unchecked TypeScript cast as an error. -/
def diffCallback (args : ArgMap) (_fctx : FunctionContext) :
    Except EvalErr Value :=
  match args.get? "a", args.get? "b" with
  | some (.scalar (.num a)), some (.scalar (.num b)) => .ok (.num (jsAbs (a - b)))
  | _, _ => .error (.jsErr "diff: arguments are not numbers")

/-- Numeric projection of a value list; fails on the shapes that parameter
validation has already excluded. -/
def numsOf (vs : List Value) : Except EvalErr (List ℚ) :=
  match vs with
  | [] => .ok []
  | .num q :: rest => do
    let qs ← numsOf rest
    .ok (q :: qs)
  | _ :: _ => .error (.jsErr "expected a list of numbers")

/-- Callback of the built-in `sum`: adds all arguments, empty list gives 0. -/
def sumCallback (args : ArgMap) (_fctx : FunctionContext) :
    Except EvalErr Value :=
  match args.get? "numbers" with
  | some (.array vs) => do
    let qs ← numsOf vs
    .ok (.num (qs.foldl (· + ·) 0))
  | _ => .error (.jsErr "sum: arguments are not an array")

/-- Callback of the built-in `max`: maximum of the arguments, empty gives 0. -/
def maxCallback (args : ArgMap) (_fctx : FunctionContext) :
    Except EvalErr Value :=
  match args.get? "numbers" with
  | some (.array vs) => do
    let qs ← numsOf vs
    match qs with
    | [] => .ok (.num 0)
    | q :: rest => .ok (.num (rest.foldl max q))
  | _ => .error (.jsErr "max: arguments are not an array")

/-- Callback of the built-in `min`: minimum of the arguments, empty gives 0. -/
def minCallback (args : ArgMap) (_fctx : FunctionContext) :
    Except EvalErr Value :=
  match args.get? "numbers" with
  | some (.array vs) => do
    let qs ← numsOf vs
    match qs with
    | [] => .ok (.num 0)
    | q :: rest => .ok (.num (rest.foldl min q))
  | _ => .error (.jsErr "min: arguments are not an array")

/-- Callback of the built-in `round`. The source computes
`Math.round(value * 10 ** decimals) / 10 ** decimals` with a default of 0
decimals; a non-integer decimals argument would produce an irrational factor
in JS floating point and is outside the rational model, so it is flagged as a
model-boundary error (no rule in the repository uses one). -/
def roundCallback (args : ArgMap) (_fctx : FunctionContext) :
    Except EvalErr Value :=
  match args.get? "value" with
  | some (.scalar (.num value)) =>
    let decimals : ℚ := match args.get? "decimals" with
      | some (.scalar (.num d)) => d
      | _ => 0
    if decimals.den = 1 then
      let factor : ℚ := (10 : ℚ) ^ (decimals.num)
      .ok (.num (jsRound (value * factor) / factor))
    else
      .error (.jsErr "round: non-integer decimals are outside the model")
  | _ => .error (.jsErr "round: value is not a number")

/-- The bracket scan of the built-in `lookup` (src/expression/builtins.ts):
an unbounded max is replaced by MAX_SAFE_INTEGER, the bound check is
inclusive on both ends, and — unlike the Lookup operation — a missed scan
falls through to a result of 0. -/
def builtinLookupScan (brackets : List TableBracket) (value : ℚ) : Value :=
  match brackets with
  | [] => .num 0
  | b :: rest =>
    let mx := match b.max with
      | none => MAX_SAFE_INTEGER
      | some m => m
    if b.min ≤ value ∧ value ≤ mx then
      .num (b.base_tax + (value - b.min) * b.rate)
    else
      builtinLookupScan rest value

/-- Callback of the built-in `lookup` function. -/
def lookupCallback (args : ArgMap) (fctx : FunctionContext) :
    Except EvalErr Value :=
  match args.get? "tableName", args.get? "value" with
  | some (.scalar (.str tableName)), some (.scalar (.num value)) =>
    match fctx.tables with
    | none => .error (.jsErr "Tables context not available for lookup function")
    | some tables =>
      match tables.find? tableName with
      | none => .error (.jsErr ("Table " ++ tableName ++ " not found"))
      | some table => .ok (builtinLookupScan table.brackets value)
  | _, _ => .error (.jsErr "lookup: arguments have the wrong types")

/-- ExpressionEvaluatorConfig: the three built-in records handed to the
evaluator (BUILTINS in src/expression/builtins.ts for the deployed engine). -/
structure EvaluatorConfig where
  builtinFunctions : List (String × FunctionDefinition)
  builtinConstants : VarMap
  builtinVariables : VarMap

/-- BUILTIN_FUNCTIONS of src/expression/builtins.ts. -/
def BUILTIN_FUNCTIONS : List (String × FunctionDefinition) :=
  [("diff",
    { parameters :=
        [{ name := some "a", type := "number", required := true },
         { name := some "b", type := "number", required := true }],
      callback := diffCallback }),
   ("sum",
    { parameters :=
        [{ name := some "...numbers", type := "array",
           itemsType := some "number", required := false }],
      callback := sumCallback }),
   ("max",
    { parameters :=
        [{ name := some "...numbers", type := "array",
           itemsType := some "number", required := false }],
      callback := maxCallback }),
   ("min",
    { parameters :=
        [{ name := some "...numbers", type := "array",
           itemsType := some "number", required := false }],
      callback := minCallback }),
   ("round",
    { parameters :=
        [{ name := some "value", type := "number", required := true },
         { name := some "decimals", type := "number", required := false }],
      callback := roundCallback }),
   ("lookup",
    { parameters :=
        [{ name := some "tableName", type := "string", required := true },
         { name := some "value", type := "number", required := true }],
      callback := lookupCallback })]

/-- BUILTIN_CONSTANTS of src/expression/builtins.ts. -/
def BUILTIN_CONSTANTS : VarMap :=
  [("MAX_TAXABLE_INCOME", .num 9007199254740991)]

/-- BUILTIN_OUTPUT_VARIABLES of src/expression/builtins.ts: the predefined
`liability` accumulator defaulting to 0. -/
def BUILTIN_OUTPUT_VARIABLES : VarMap :=
  [("liability", .num 0)]

/-- BUILTINS, the configuration the public api hands to RuleEvaluator. -/
def BUILTINS : EvaluatorConfig :=
  { builtinFunctions := BUILTIN_FUNCTIONS,
    builtinConstants := BUILTIN_CONSTANTS,
    builtinVariables := BUILTIN_OUTPUT_VARIABLES }

/-! ## Expression evaluator (src/expression/evaluator.ts) -/

/-- VariableContext of src/expression/evaluator.ts; tables are optional and
several call sites omit them. -/
structure VariableContext where
  inputs : VarMap
  constants : VarMap
  calculated : VarMap
  tables : Option TableMap := none

/-- Function-lookup on the configured built-in record. -/
def EvaluatorConfig.fn? (cfg : EvaluatorConfig) (name : String) :
    Option FunctionDefinition :=
  match cfg.builtinFunctions.find? (fun p => p.1 = name) with
  | some p => some p.2
  | none => none

/-- Registration of one context map into the registry
(the per-domain loops of buildDynamicSymbolRegistry). -/
def addAllSymbols (entries : VarMap) (symbolType : SymbolType)
    (reg : Registry) : Except EvalErr Registry :=
  match entries with
  | [] => .ok reg
  | (name, v) :: rest => do
    let reg ← reg.addSymbol name symbolType .context (some (jsTypeof v))
    addAllSymbols rest symbolType reg

/-- The SymbolRegistry constructor over the built-in records: functions, then
constants, then variables. -/
def baseRegistry (cfg : EvaluatorConfig) : Except EvalErr Registry := do
  let reg ← cfg.builtinFunctions.foldlM
    (fun reg p => Registry.addSymbol reg p.1 .function .builtin none)
    ([] : Registry)
  let reg ← cfg.builtinConstants.foldlM
    (fun reg p =>
      Registry.addSymbol reg p.1 .constant_variable .builtin (some (jsTypeof p.2)))
    reg
  cfg.builtinVariables.foldlM
    (fun reg p =>
      Registry.addSymbol reg p.1 .calculated_variable .builtin (some (jsTypeof p.2)))
    reg

/-- One evaluate call clears the context-origin symbols and rebuilds them
from the variable context (clearDynamicSymbols followed by
buildDynamicSymbolRegistry), so the per-call registry is a pure function of
the configuration and the context. -/
def buildDynamicRegistry (cfg : EvaluatorConfig) (ctx : VariableContext) :
    Except EvalErr Registry := do
  let reg ← baseRegistry cfg
  let reg ← addAllSymbols ctx.inputs .input_variable reg
  let reg ← addAllSymbols ctx.constants .constant_variable reg
  addAllSymbols ctx.calculated .calculated_variable reg

/-- validateIdentifierUsage of src/expression/evaluator.ts;
`expectedFunction` is true for use as a function. An unregistered name passes
(missing symbols are judged by the resolution logic). -/
def validateIdentifierUsage (reg : Registry) (name : String)
    (expectedFunction : Bool) : Except EvalErr Unit :=
  match reg.get? name with
  | none => .ok ()
  | some symbol =>
    if (decide (symbol.symbolType = .function)) ≠ expectedFunction then
      .error (.exprErr ("Incorrect usage of " ++ name))
    else
      .ok ()

/-- evaluateInputVariable: input references read `context.inputs` only. -/
def evaluateInputVariable (reg : Registry) (ctx : VariableContext)
    (name : String) : Except EvalErr Value := do
  let _ ← validateIdentifierUsage reg name false
  match ctx.inputs.find? name with
  | some v => .ok v
  | none =>
    .error (.exprErr ("Input variable " ++ name ++ " not found in context"))

/-- evaluateConstantVariable: context constants first, then built-in
constants. -/
def evaluateConstantVariable (cfg : EvaluatorConfig) (reg : Registry)
    (ctx : VariableContext) (name : String) : Except EvalErr Value := do
  let _ ← validateIdentifierUsage reg name false
  match ctx.constants.find? name with
  | some v => .ok v
  | none =>
    match cfg.builtinConstants.find? name with
    | some v => .ok v
    | none =>
      .error (.exprErr ("Constant " ++ name ++
        " not found in context or built-in constants"))

/-- evaluateCalculatedVariable: context calculated first, then built-in
variables. -/
def evaluateCalculatedVariable (cfg : EvaluatorConfig) (reg : Registry)
    (ctx : VariableContext) (name : String) : Except EvalErr Value := do
  let _ ← validateIdentifierUsage reg name false
  match ctx.calculated.find? name with
  | some v => .ok v
  | none =>
    match cfg.builtinVariables.find? name with
    | some v => .ok v
    | none =>
      .error (.exprErr ("Calculated variable " ++ name ++
        " not found in context or built-in variables"))

/-- The variadic test of evaluateCall: a single array-typed optional
parameter whose name starts with the spread marker. -/
def isVariadicSchema (schema : List ParamSchema) : Bool :=
  match schema with
  | [p] =>
    (match p.name with
     | some n => n.startsWith "..."
     | none => false) && p.type = "array" && !p.required
  | _ => false

/-- The (looser) variadic test of validateFunctionParameters, which omits the
spread-marker condition. -/
def isVariadicSchemaLoose (schema : List ParamSchema) : Bool :=
  match schema with
  | [p] => p.type = "array" && !p.required
  | _ => false

/-- The spread-marker strip applied to a variadic parameter name. -/
def stripSpread (name : String) : String :=
  if name.startsWith "..." then name.drop 3 else name

/-- validateFunctionParameters of src/expression/evaluator.ts over the
evaluated-arguments record. -/
def validateFunctionParameters (name : String) (func : FunctionDefinition)
    (params : ArgMap) : Except EvalErr Unit := do
  let schema := func.parameters
  if isVariadicSchemaLoose schema then
    match schema with
    | [paramSchema] =>
      let paramName := paramSchema.name.getD "args"
      let cleanParamName := stripSpread paramName
      match params.get? cleanParamName with
      | some (.array items) =>
        match paramSchema.itemsType with
        | none =>
          .error (.exprErr ("Function " ++ name ++
            " array parameter missing items type definition"))
        | some expectedType =>
          if items.all (fun item => jsTypeof item = expectedType) then
            .ok ()
          else
            .error (.exprErr ("Function " ++ name ++
              " has a variadic argument of the wrong type"))
      | _ =>
        .error (.exprErr ("Function " ++ name ++ " parameter " ++
          paramName ++ " must be an array"))
    | _ => .ok ()
  else do
    let requiredParams := schema.filter (fun p => p.required)
    if requiredParams.all
        (fun p => (params.get? (p.name.getD "unknown")).isSome) then
      if schema.all (fun p =>
          match params.get? (p.name.getD "unknown") with
          | some v => v.jsTypeofArg = p.type
          | none => true) then
        let expectedNames := schema.filterMap (fun p => p.name)
        if params.all (fun q => expectedNames.contains q.1) then
          .ok ()
        else
          .error (.exprErr ("Function " ++ name ++
            " received an unexpected parameter"))
      else
        .error (.exprErr ("Function " ++ name ++
          " has a parameter of the wrong type"))
    else
      .error (.exprErr ("Function " ++ name ++
        " is missing a required parameter"))

mutual

/-- evaluateExpression of src/expression/evaluator.ts: dispatch on the AST
node kind. -/
def evaluateExpression (cfg : EvaluatorConfig) (reg : Registry)
    (ctx : VariableContext) : Expr → Except EvalErr Value
  | .numberLit v => .ok (.num v)
  | .booleanLit b => .ok (.bool b)
  | .stringLit s => .ok (.str s)
  | .inputVar name => evaluateInputVariable reg ctx name
  | .constantVar name => evaluateConstantVariable cfg reg ctx name
  | .calculatedVar name => evaluateCalculatedVariable cfg reg ctx name
  | .call name parameters => do
    let _ ← validateIdentifierUsage reg name true
    match cfg.fn? name with
    | none => .error (.exprErr ("Unknown function " ++ name))
    | some func => do
      let evaluatedParams ←
        if isVariadicSchema func.parameters then do
          let paramName :=
            (match func.parameters with
             | [p] => p.name.getD "args"
             | _ => "args")
          let vals ← evaluateParamArray cfg reg ctx name parameters
          pure ([(stripSpread paramName, ArgVal.array vals)] : ArgMap)
        else
          evaluateParamRecord cfg reg ctx name func.parameters 0 parameters []
      let _ ← validateFunctionParameters name func evaluatedParams
      func.callback evaluatedParams { tables := ctx.tables }

/-- The variadic branch of evaluateCall: evaluate each parameter expression
in order, wrapping any failure in a parameter-evaluation error. -/
def evaluateParamArray (cfg : EvaluatorConfig) (reg : Registry)
    (ctx : VariableContext) (name : String) :
    List Expr → Except EvalErr (List Value)
  | [] => .ok []
  | p :: rest =>
    match evaluateExpression cfg reg ctx p with
    | .error e =>
      .error (.exprErr ("Failed to evaluate parameter in function " ++
        name ++ ": " ++ e.message))
    | .ok v => do
      let vs ← evaluateParamArray cfg reg ctx name rest
      .ok (v :: vs)

/-- The positional branch of evaluateCall: map each parameter to its schema
name (rejecting extras), evaluating in order. -/
def evaluateParamRecord (cfg : EvaluatorConfig) (reg : Registry)
    (ctx : VariableContext) (name : String) (schema : List ParamSchema)
    (i : Nat) : List Expr → ArgMap → Except EvalErr ArgMap
  | [], acc => .ok acc
  | p :: rest, acc =>
    match schema.get? i with
    | none =>
      .error (.exprErr ("Function " ++ name ++ " received too many parameters"))
    | some paramSchema =>
      let paramName := paramSchema.name.getD ("param" ++ toString i)
      match evaluateExpression cfg reg ctx p with
      | .error e =>
        .error (.exprErr ("Failed to evaluate parameter " ++ paramName ++
          " in function " ++ name ++ ": " ++ e.message))
      | .ok v =>
        evaluateParamRecord cfg reg ctx name schema (i + 1) rest
          (acc.set paramName (.scalar v))

end

/-- ExprInput distinguishes the `string | ParsedExpression` argument of the
public evaluate method. -/
inductive ExprInput where
  | text (s : String)
  | parsed (e : Expr)

/-- The catch clause of the public evaluate method: an
ExpressionEvaluationError passes through, anything else is wrapped into one. -/
def wrapExprErr (r : Except EvalErr Value) : Except EvalErr Value :=
  match r with
  | .ok v => .ok v
  | .error (.exprErr m) => .error (.exprErr m)
  | .error e => .error (.exprErr ("Evaluation failed: " ++ e.message))

/-- ExpressionEvaluator.evaluate of src/expression/evaluator.ts: parse string
input, rebuild the dynamic registry from the context, then walk the AST. -/
def ExpressionEvaluator.evaluate (cfg : EvaluatorConfig) (input : ExprInput)
    (ctx : VariableContext) : Except EvalErr Value :=
  wrapExprErr (do
    let e ← match input with
      | .text s => Parser.parse s
      | .parsed e => pure e
    let reg ← buildDynamicRegistry cfg ctx
    evaluateExpression cfg reg ctx e)

/-! ## Conditions and the conditional evaluator (src/evaluator/conditional.ts) -/

/-- ComparisonCondition of src/types/index.ts: at most one operator key in
well-formed rules, though the evaluator checks them in a fixed order. -/
structure ComparisonCondition where
  lt : Option Value := none
  lte : Option Value := none
  gt : Option Value := none
  gte : Option Value := none
  eq : Option Value := none
  ne : Option Value := none

/-- Condition of src/types/index.ts: either an object mapping a variable
name to a comparison, or a logical combinator object. -/
inductive Condition where
  | comparison (entries : List (String × ComparisonCondition))
  | logical (andC : Option (List Condition)) (orC : Option (List Condition))
      (notC : Option Condition)

/-- EvaluationContext of src/types/index.ts. In the source all four fields
are references to shared mutable objects; the embedding threads the record
functionally. -/
structure EvaluationContext where
  inputs : VarMap
  constants : VarMap
  calculated : VarMap
  tables : TableMap
deriving DecidableEq

/-- The variable context the conditional evaluator hands to the expression
evaluator: the three maps without tables. -/
def EvaluationContext.toVariableContext (ctx : EvaluationContext) :
    VariableContext :=
  { inputs := ctx.inputs, constants := ctx.constants,
    calculated := ctx.calculated }

/-- isLogicalCondition: the JS `in` checks for any of the three combinator
keys. -/
def isLogicalCondition : Condition → Bool
  | .comparison _ => false
  | .logical andC orC notC => andC.isSome || orC.isSome || notC.isSome

/-- resolveComparisonValue of src/evaluator/conditional.ts: numbers and
booleans are returned as-is, while a string right-hand side is handed to the
expression evaluator (it is re-resolved, not treated as a literal); a string
result is rejected, and expression errors are rethrown as rule errors. -/
def resolveComparisonValue (cfg : EvaluatorConfig) (value : Value)
    (ctx : EvaluationContext) : Except EvalErr Value :=
  match value with
  | .num q => .ok (.num q)
  | .bool b => .ok (.bool b)
  | .str s =>
    match ExpressionEvaluator.evaluate cfg (.text s) ctx.toVariableContext with
    | .ok (.str result) =>
      .error (.ruleErr
        ("String values are not allowed in conditional expressions: " ++ result))
    | .ok v => .ok v
    | .error (.exprErr m) => .error (.ruleErr m)
    | .error e => .error e

/-- evaluateComparison of src/evaluator/conditional.ts. Equality operators
are checked first and use JS strict equality on any scalar pair; the four
ordering operators are reached only when the left value is a number, and each
rejects a non-numeric right side; a non-numeric left value falls through to
`false`. -/
def evaluateComparison (cfg : EvaluatorConfig) (value : Value)
    (comparison : ComparisonCondition) (ctx : EvaluationContext) :
    Except EvalErr Bool := do
  match comparison.eq with
  | some cv => do
    let compareValue ← resolveComparisonValue cfg cv ctx
    return decide (value = compareValue)
  | none =>
  match comparison.ne with
  | some cv => do
    let compareValue ← resolveComparisonValue cfg cv ctx
    return decide (value ≠ compareValue)
  | none =>
  match value with
  | .num q =>
    match comparison.lt with
    | some cv => do
      let compareValue ← resolveComparisonValue cfg cv ctx
      match compareValue with
      | .num c => return decide (q < c)
      | v =>
        .error (.ruleErr ("Cannot compare number with " ++ jsTypeof v ++
          " using lt"))
    | none =>
    match comparison.lte with
    | some cv => do
      let compareValue ← resolveComparisonValue cfg cv ctx
      match compareValue with
      | .num c => return decide (q ≤ c)
      | v =>
        .error (.ruleErr ("Cannot compare number with " ++ jsTypeof v ++
          " using lte"))
    | none =>
    match comparison.gt with
    | some cv => do
      let compareValue ← resolveComparisonValue cfg cv ctx
      match compareValue with
      | .num c => return decide (c < q)
      | v =>
        .error (.ruleErr ("Cannot compare number with " ++ jsTypeof v ++
          " using gt"))
    | none =>
    match comparison.gte with
    | some cv => do
      let compareValue ← resolveComparisonValue cfg cv ctx
      match compareValue with
      | .num c => return decide (c ≤ q)
      | v =>
        .error (.ruleErr ("Cannot compare number with " ++ jsTypeof v ++
          " using gte"))
    | none => return false
  | _ => return false

/-- resolveVariableValue of src/evaluator/conditional.ts: the left-hand name
of a comparison is looked up directly in calculated, then inputs, then
constants; only when absent from all three is it handed to the expression
evaluator, whose string results are rejected and whose errors are rewritten
per reference prefix. -/
def resolveVariableValue (cfg : EvaluatorConfig) (varName : String)
    (ctx : EvaluationContext) : Except EvalErr Value :=
  match ctx.calculated.find? varName with
  | some v => .ok v
  | none =>
  match ctx.inputs.find? varName with
  | some v => .ok v
  | none =>
  match ctx.constants.find? varName with
  | some v => .ok v
  | none =>
    match ExpressionEvaluator.evaluate cfg (.text varName)
        ctx.toVariableContext with
    | .ok (.str result) =>
      .error (.ruleErr
        ("String values are not allowed in conditional expressions: " ++ result))
    | .ok v => .ok v
    | .error (.exprErr _) =>
      if varName.startsWith "$$" then
        .error (.ruleErr ("Constant " ++ varName.drop 2 ++ " not found"))
      else if varName.startsWith "$" then
        .error (.ruleErr ("Input variable " ++ varName.drop 1 ++ " not found"))
      else
        .error (.ruleErr ("Variable " ++ varName ++ " not found"))
    | .error e => .error e

mutual

/-- evaluateCondition of src/evaluator/conditional.ts: logical nodes are
dispatched (the `and` key is checked first, then `or`, then `not`, an
unpopulated combinator object yielding false); otherwise the first (and
only) entry of the comparison object is evaluated, an empty object giving
false. The combinator dispatch of evaluateLogicalCondition is inlined here
so the recursion is structural. -/
def evaluateCondition (cfg : EvaluatorConfig) (condition : Condition)
    (ctx : EvaluationContext) : Except EvalErr Bool :=
  match condition with
  | .logical andC orC notC =>
    if isLogicalCondition (Condition.logical andC orC notC) then
      match andC with
      | some cs => evalConditionsAll cfg cs ctx
      | none =>
        match orC with
        | some cs => evalConditionsAny cfg cs ctx
        | none =>
          match notC with
          | some c => do
            let b ← evaluateCondition cfg c ctx
            .ok (!b)
          | none => .ok false
    else
      .ok false
  | .comparison entries =>
    match entries with
    | [] => .ok false
    | (varName, comparison) :: _ => do
      let varValue ← resolveVariableValue cfg varName ctx
      evaluateComparison cfg varValue comparison ctx

/-- Array.prototype.every over child conditions, with short-circuiting and
error propagation. -/
def evalConditionsAll (cfg : EvaluatorConfig) (cs : List Condition)
    (ctx : EvaluationContext) : Except EvalErr Bool :=
  match cs with
  | [] => .ok true
  | c :: rest => do
    let b ← evaluateCondition cfg c ctx
    if b then evalConditionsAll cfg rest ctx else .ok false

/-- Array.prototype.some over child conditions, with short-circuiting and
error propagation. -/
def evalConditionsAny (cfg : EvaluatorConfig) (cs : List Condition)
    (ctx : EvaluationContext) : Except EvalErr Bool :=
  match cs with
  | [] => .ok false
  | c :: rest => do
    let b ← evaluateCondition cfg c ctx
    if b then .ok true else evalConditionsAny cfg rest ctx

end

/-- ConditionalEvaluator.evaluate: the public method wraps every failure into
a RuleEvaluationError with a fixed prefix. -/
def ConditionalEvaluator.evaluate (cfg : EvaluatorConfig)
    (condition : Condition) (ctx : EvaluationContext) : Except EvalErr Bool :=
  match evaluateCondition cfg condition ctx with
  | .ok b => .ok b
  | .error e =>
    .error (.ruleErr ("Conditional evaluation failed: " ++ e.message))

/-! ## Operation registry (the operations module bundled with
src/evaluator/conditional.ts) -/

/-- Operation models the tagged operation union of src/types/index.ts; the
dispatch key is the `type` string and `table` is carried by lookup
operations only. -/
structure Operation where
  type : String
  target : String
  value : Value
  table : Option String := none

/-- resolveValue of the operations module: numbers and booleans pass
through, a string is evaluated as an expression and its result returned
directly — the string-rejection block after that return statement is
unreachable in the source — and expression errors are rethrown as plain
errors. -/
def resolveOperandValue (cfg : EvaluatorConfig) (value : Value)
    (ctx : EvaluationContext) : Except EvalErr Value :=
  match value with
  | .num q => .ok (.num q)
  | .bool b => .ok (.bool b)
  | .str s =>
    match ExpressionEvaluator.evaluate cfg (.text s) ctx.toVariableContext with
    | .ok v => .ok v
    | .error (.exprErr m) => .error (.jsErr m)
    | .error e => .error e

/-- OperationFunction: each operation maps a context to a new context or an
error (the expression evaluator argument is the configuration here). -/
def OperationFunction : Type :=
  EvaluatorConfig → Operation → EvaluationContext →
    Except EvalErr EvaluationContext

/-- setOperation: unconditional overwrite of the target with the resolved
value, any scalar type. -/
def setOperation : OperationFunction := fun cfg operation context => do
  let value ← resolveOperandValue cfg operation.value context
  .ok { context with
    calculated := context.calculated.insert operation.target value }

/-- addOperation: numeric-only addition onto the current target value. -/
def addOperation : OperationFunction := fun cfg operation context => do
  let currentValue := context.calculated.find? operation.target
  let addValue ← resolveOperandValue cfg operation.value context
  match currentValue, addValue with
  | some (.num cur), .num v =>
    .ok { context with
      calculated := context.calculated.insert operation.target (.num (cur + v)) }
  | _, _ =>
    .error (.opErr "Add operation requires numeric values")

/-- subtractOp: numeric-only subtraction (also registered under the alias
`deduct`). -/
def subtractOp : OperationFunction := fun cfg operation context => do
  let currentValue := context.calculated.find? operation.target
  let subValue ← resolveOperandValue cfg operation.value context
  match currentValue, subValue with
  | some (.num cur), .num v =>
    .ok { context with
      calculated := context.calculated.insert operation.target (.num (cur - v)) }
  | _, _ =>
    .error (.opErr "Subtract operation requires numeric values")

/-- multiplyOp: numeric-only multiplication. -/
def multiplyOp : OperationFunction := fun cfg operation context => do
  let currentValue := context.calculated.find? operation.target
  let mulValue ← resolveOperandValue cfg operation.value context
  match currentValue, mulValue with
  | some (.num cur), .num v =>
    .ok { context with
      calculated := context.calculated.insert operation.target (.num (cur * v)) }
  | _, _ =>
    .error (.opErr "Multiply operation requires numeric values")

/-- divideOp: numeric-only division; a zero operand raises the division
error after the type check and before any context update. -/
def divideOp : OperationFunction := fun cfg operation context => do
  let currentValue := context.calculated.find? operation.target
  let divValue ← resolveOperandValue cfg operation.value context
  match currentValue, divValue with
  | some (.num cur), .num v =>
    if v = 0 then
      .error (.opErr "Division by zero")
    else
      .ok { context with
        calculated := context.calculated.insert operation.target (.num (cur / v)) }
  | _, _ =>
    .error (.opErr "Divide operation requires numeric values")

/-- minOp: replace the target with the smaller of current and operand. -/
def minOp : OperationFunction := fun cfg operation context => do
  let currentValue := context.calculated.find? operation.target
  let minValue ← resolveOperandValue cfg operation.value context
  match currentValue, minValue with
  | some (.num cur), .num v =>
    .ok { context with
      calculated := context.calculated.insert operation.target (.num (min cur v)) }
  | _, _ =>
    .error (.opErr "Min operation requires numeric values")

/-- maxOp: replace the target with the larger of current and operand. -/
def maxOp : OperationFunction := fun cfg operation context => do
  let currentValue := context.calculated.find? operation.target
  let maxValue ← resolveOperandValue cfg operation.value context
  match currentValue, maxValue with
  | some (.num cur), .num v =>
    .ok { context with
      calculated := context.calculated.insert operation.target (.num (max cur v)) }
  | _, _ =>
    .error (.opErr "Max operation requires numeric values")

/-- The bracket predicate of the Lookup operation loop:
`lookupValue >= b.min && (b.max === null || lookupValue <= b.max)` — note
the inclusive upper bound. -/
def bracketMatches (b : TableBracket) (value : ℚ) : Bool :=
  decide (b.min ≤ value) &&
    (match b.max with
     | none => true
     | some m => decide (value ≤ m))

/-- The first-match bracket scan of the Lookup operation. -/
def findBracket : List TableBracket → ℚ → Option TableBracket
  | [], _ => none
  | b :: rest, value =>
    if bracketMatches b value then some b else findBracket rest value

/-- lookupOp: resolve the lookup value to a number, find the table, select
the first bracket whose inclusive range contains the value (no bracket is a
table error, never a silent zero on this path), and store
`base_tax + (min(value, max) − min) × rate`. -/
def lookupOp : OperationFunction := fun cfg operation context => do
  let lookupValue ← resolveOperandValue cfg operation.value context
  match lookupValue with
  | .num value =>
    let tableName := operation.table.getD "undefined"
    match context.tables.find? tableName with
    | none => .error (.tableErr ("Table " ++ tableName ++ " not found"))
    | some table =>
      match findBracket table.brackets value with
      | none =>
        .error (.tableErr ("No bracket found for the value in table " ++
          tableName))
      | some bracket =>
        let taxableInBracket := match bracket.max with
          | none => value - bracket.min
          | some m => min value m - bracket.min
        let taxInBracket := taxableInBracket * bracket.rate
        let totalTax := bracket.base_tax + taxInBracket
        .ok { context with
          calculated := context.calculated.insert operation.target
            (.num totalTax) }
  | v =>
    .error (.opErr ("Lookup operation requires numeric lookup value, got " ++
      jsTypeof v))

/-- OPERATION_REGISTRY of the operations module, including the `deduct`
alias for subtract. -/
def OPERATION_REGISTRY : List (String × OperationFunction) :=
  [("set", setOperation),
   ("add", addOperation),
   ("subtract", subtractOp),
   ("deduct", subtractOp),
   ("multiply", multiplyOp),
   ("divide", divideOp),
   ("min", minOp),
   ("max", maxOp),
   ("lookup", lookupOp)]

/-- Registry lookup by operation type string. -/
def operationFor? (opType : String) : Option OperationFunction :=
  match OPERATION_REGISTRY.find? (fun p => p.1 = opType) with
  | some p => some p.2
  | none => none

/-- executeOperation of src/evaluator/evaluator.ts: dispatch through the
operation registry, unknown kinds raising an operation error. -/
def executeOperation (cfg : EvaluatorConfig) (operation : Operation)
    (context : EvaluationContext) : Except EvalErr EvaluationContext :=
  match operationFor? operation.type with
  | none =>
    .error (.opErr ("Unknown operation type: " ++ operation.type))
  | some f => f cfg operation context

/-! ## Rule documents and the rule-flow evaluator (src/evaluator/evaluator.ts)

Only the parts of a rule document the engine consumes are modelled
(constants, tables, input and output schemas, validation rules, flow);
metadata fields do not influence evaluation. -/

/-- VariableDeclaration of src/types/index.ts restricted to the fields the
engine reads. -/
structure VariableDeclaration where
  type : String
  minimum : Option ℚ := none
  maximum : Option ℚ := none
  enum : Option (List String) := none
  when : Option Condition := none
  default : Option Value := none

/-- Case of src/types/index.ts: an optional guard plus a (required)
operation list. -/
structure Case where
  when : Option Condition := none
  operations : List Operation

/-- FlowStep of src/types/index.ts: a name with optional operation and case
lists. -/
structure FlowStep where
  name : String
  operations : Option (List Operation) := none
  cases : Option (List Case) := none

/-- A bracket min bound as it appears in a raw rule document: a number, or an
expression string resolved at context-creation time. -/
inductive BracketMin where
  | num (q : ℚ)
  | expr (s : String)

/-- A bracket max bound as it appears in a raw rule document: a number, the
JSON null sentinel for unbounded, or an expression string. -/
inductive BracketMax where
  | num (q : ℚ)
  | null
  | expr (s : String)

/-- A bracket row of a rule document before bound resolution. -/
structure RuleBracket where
  min : BracketMin
  max : BracketMax
  rate : ℚ
  base_tax : ℚ

/-- A table of a rule document before bound resolution. -/
structure RuleTable where
  name : String
  brackets : List RuleBracket

/-- ValidationRule of src/types/index.ts. -/
structure ValidationRule where
  when : Condition
  error : String

/-- Rule of src/types/index.ts restricted to the fields the engine reads;
input and output schemas are ordered entry lists, mirroring JS object key
order. -/
structure Rule where
  constants : Option VarMap := none
  tables : Option (List RuleTable) := none
  inputs : List (String × VariableDeclaration) := []
  outputs : List (String × VariableDeclaration) := []
  validate : Option (List ValidationRule) := none
  flow : List FlowStep := []

/-- The enum constraint check at the end of each input-loop iteration:
Array.prototype.includes uses strict equality, so only a string value can
match the (string-typed) enum entries. -/
def checkEnum (inputName : String) (inputDecl : VariableDeclaration)
    (value : Value) (inputsState : VarMap) : Except EvalErr VarMap :=
  match inputDecl.enum with
  | some es =>
    if es ≠ [] then
      if (match value with
          | .str s => es.contains s
          | _ => false) then
        .ok inputsState
      else
        .error (.ruleErr ("Input " ++ inputName ++
          " value is not in allowed enum values"))
    else .ok inputsState
  | none => .ok inputsState

/-- The maximum range check of createContext (evaluator.ts, second of the
two sequential numeric range checks), followed by the enum check that ends
the loop iteration. -/
def checkMaximum (inputName : String) (inputDecl : VariableDeclaration)
    (q : ℚ) (value : Value) (inputsState : VarMap) : Except EvalErr VarMap :=
  match inputDecl.maximum with
  | some hi =>
    if hi < q then
      .error (.ruleErr ("Input " ++ inputName ++
        " value is above maximum"))
    else
      checkEnum inputName inputDecl value inputsState
  | none => checkEnum inputName inputDecl value inputsState

/-- One iteration of the input-declaration loop of
RuleEvaluator.createContext, threading the inputs map that the source
mutates in place. The temporary context used by conditional requirements
sees the inputs state of the moment, empty calculated and tables, and the
rule constants. -/
def processInputDecl (cfg : EvaluatorConfig) (constants : VarMap)
    (inputName : String) (inputDecl : VariableDeclaration)
    (inputsState : VarMap) : Except EvalErr VarMap := do
  let tempContext : EvaluationContext :=
    { inputs := inputsState, constants := constants, calculated := [],
      tables := [] }
  let hasDefault := inputDecl.default.isSome
  let isRequired :=
    match inputDecl.when with
    | none => true
    | some cond =>
      match ConditionalEvaluator.evaluate cfg cond tempContext with
      | .ok b => b
      | .error _ => true
  let inputsState :=
    if !(inputsState.mem inputName) && hasDefault && isRequired then
      match inputDecl.default with
      | some d => inputsState.insert inputName d
      | none => inputsState
    else inputsState
  if isRequired && !hasDefault && !(inputsState.mem inputName) then
    .error (.ruleErr ("Required input " ++ inputName ++ " not provided"))
  else
    match inputsState.find? inputName with
    | none => .ok inputsState
    | some value =>
      if jsTypeof value ≠ inputDecl.type then
        .error (.ruleErr ("Input " ++ inputName ++ " has wrong type"))
      else if inputDecl.type = "number" then
        match value with
        | .num q =>
          match inputDecl.minimum with
          | some lo =>
            if q < lo then
              .error (.ruleErr ("Input " ++ inputName ++
                " value is below minimum"))
            else
              checkMaximum inputName inputDecl q value inputsState
          | none => checkMaximum inputName inputDecl q value inputsState
        | _ => checkEnum inputName inputDecl value inputsState
      else
        checkEnum inputName inputDecl value inputsState

/-- The whole input-declaration loop, in schema order. -/
def processInputDecls (cfg : EvaluatorConfig) (constants : VarMap) :
    List (String × VariableDeclaration) → VarMap → Except EvalErr VarMap
  | [], inputsState => .ok inputsState
  | (name, decl) :: rest, inputsState => do
    let inputsState ← processInputDecl cfg constants name decl inputsState
    processInputDecls cfg constants rest inputsState

/-- Resolution of a raw bracket min bound in createContext: a string bound
is evaluated against inputs and constants (empty calculated, empty tables).
The source applies an unchecked `as number` cast to the result; a
non-numeric result is outside the model and flagged (the external validator
only admits numeric bounds or the numeric $$MAX_TAXABLE_INCOME). -/
def resolveBracketMin (cfg : EvaluatorConfig) (inputs constants : VarMap) :
    BracketMin → Except EvalErr ℚ
  | .num q => .ok q
  | .expr s =>
    match ExpressionEvaluator.evaluate cfg (.text s)
        { inputs := inputs, constants := constants, calculated := [],
          tables := some [] } with
    | .ok (.num q) => .ok q
    | .ok _ => .error (.jsErr "bracket bound resolved to a non-number")
    | .error e => .error e

/-- Resolution of a raw bracket max bound in createContext; null is kept as
the unbounded sentinel. -/
def resolveBracketMax (cfg : EvaluatorConfig) (inputs constants : VarMap) :
    BracketMax → Except EvalErr (Option ℚ)
  | .num q => .ok (some q)
  | .null => .ok none
  | .expr s =>
    match ExpressionEvaluator.evaluate cfg (.text s)
        { inputs := inputs, constants := constants, calculated := [],
          tables := some [] } with
    | .ok (.num q) => .ok (some q)
    | .ok _ => .error (.jsErr "bracket bound resolved to a non-number")
    | .error e => .error e

/-- Bound resolution over the bracket rows of one table. -/
def resolveRuleBrackets (cfg : EvaluatorConfig) (inputs constants : VarMap) :
    List RuleBracket → Except EvalErr (List TableBracket)
  | [] => .ok []
  | b :: rest => do
    let lo ← resolveBracketMin cfg inputs constants b.min
    let hi ← resolveBracketMax cfg inputs constants b.max
    let tail ← resolveRuleBrackets cfg inputs constants rest
    .ok ({ min := lo, max := hi, rate := b.rate, base_tax := b.base_tax } :: tail)

/-- The tables-map construction of createContext (uses the post-default
inputs map, which the source reads through the same mutated object). -/
def resolveRuleTables (cfg : EvaluatorConfig) (inputs constants : VarMap) :
    List RuleTable → Except EvalErr TableMap
  | [] => .ok []
  | t :: rest => do
    let brackets ← resolveRuleBrackets cfg inputs constants t.brackets
    let tail ← resolveRuleTables cfg inputs constants rest
    .ok ((t.name, { name := t.name, brackets := brackets }) :: tail)

/-- RuleEvaluator.createContext. In the source, `tempContext.inputs`, the
`inputs` argument and the returned `context.inputs` are one and the same
mutable object, so a default applied for an absent input is visible to the
caller through its own argument after the call; the embedding returns the
final state of that object as the context's inputs field. -/
def RuleEvaluator.createContext (cfg : EvaluatorConfig) (rule : Rule)
    (inputs : VarMap) : Except EvalErr EvaluationContext := do
  let constants := rule.constants.getD []
  let inputsState ← processInputDecls cfg constants rule.inputs inputs
  let tablesMap ← resolveRuleTables cfg inputsState constants
    (rule.tables.getD [])
  .ok { inputs := inputsState, constants := constants, calculated := [],
        tables := tablesMap }

/-- runValidation of src/evaluator/evaluator.ts: a validation rule whose
condition evaluates to true aborts with its message; a rule whose condition
cannot be evaluated is skipped (only errors already carrying the validation
prefix propagate). -/
def runValidation (cfg : EvaluatorConfig) :
    List ValidationRule → EvaluationContext → Except EvalErr Unit
  | [], _ => .ok ()
  | vrule :: rest, ctx =>
    match ConditionalEvaluator.evaluate cfg vrule.when ctx with
    | .ok true => .error (.ruleErr ("Validation failed: " ++ vrule.error))
    | .ok false => runValidation cfg rest ctx
    | .error e =>
      if (match e with
          | .ruleErr m => m.startsWith "Validation failed:"
          | _ => false) then
        .error e
      else
        runValidation cfg rest ctx

/-- Sequential execution of an operation list, threading the context. -/
def runOperations (cfg : EvaluatorConfig) :
    List Operation → EvaluationContext → Except EvalErr EvaluationContext
  | [], ctx => .ok ctx
  | op :: rest, ctx => do
    let ctx ← executeOperation cfg op ctx
    runOperations cfg rest ctx

/-- The case loop of processFlowStep: guards are evaluated top to bottom and
only the first case without a guard, or whose guard evaluates to true, runs
its operations (the loop breaks there); an exhausted list leaves the context
unchanged. The `Array.isArray(case_.operations)` conjunct of the source is
always true here because the Case type carries an operation list. -/
def processCases (cfg : EvaluatorConfig) :
    List Case → EvaluationContext → Except EvalErr EvaluationContext
  | [], ctx => .ok ctx
  | c :: rest, ctx =>
    match c.when with
    | none => runOperations cfg c.operations ctx
    | some cond => do
      let b ← ConditionalEvaluator.evaluate cfg cond ctx
      if b then
        runOperations cfg c.operations ctx
      else
        processCases cfg rest ctx

/-- processFlowStep of src/evaluator/evaluator.ts: direct operations first,
then the guarded cases. -/
def processFlowStep (cfg : EvaluatorConfig) (step : FlowStep)
    (ctx : EvaluationContext) : Except EvalErr EvaluationContext := do
  let ctx ←
    match step.operations with
    | some ops => runOperations cfg ops ctx
    | none => pure ctx
  match step.cases with
  | some cases => processCases cfg cases ctx
  | none => pure ctx

/-- processFlow: the steps run in order, each threading its context
forward. -/
def processFlow (cfg : EvaluatorConfig) :
    List FlowStep → EvaluationContext → Except EvalErr EvaluationContext
  | [], ctx => .ok ctx
  | step :: rest, ctx => do
    let ctx ← processFlowStep cfg step ctx
    processFlow cfg rest ctx

/-- One iteration of the output-defaulting loop at the end of
RuleEvaluator.evaluate: a declared output name absent from the calculated
map is inserted with false for boolean outputs and 0 otherwise. -/
def outputDefaultStep (acc : VarMap) (p : String × VariableDeclaration) :
    VarMap :=
  if acc.mem p.1 then acc
  else acc.insert p.1 (if p.2.type = "boolean" then .bool false else .num 0)

/-- The output-defaulting loop at the end of RuleEvaluator.evaluate, over
the declared outputs in schema order. -/
def applyOutputDefaults (outputs : List (String × VariableDeclaration))
    (ctx : EvaluationContext) : EvaluationContext :=
  { ctx with calculated := outputs.foldl outputDefaultStep ctx.calculated }

/-- The catch clause of RuleEvaluator.evaluate: RuleEvaluationError and
OperationError pass through, anything else is wrapped into a
RuleEvaluationError. -/
def wrapRuleErr (r : Except EvalErr EvaluationContext) :
    Except EvalErr EvaluationContext :=
  match r with
  | .ok ctx => .ok ctx
  | .error (.ruleErr m) => .error (.ruleErr m)
  | .error (.opErr m) => .error (.opErr m)
  | .error e => .error (.ruleErr ("Rule evaluation failed: " ++ e.message))

/-- RuleEvaluator.evaluate of src/evaluator/evaluator.ts: create the
context, run the validation rules, process the flow, then default the
declared outputs. -/
def RuleEvaluator.evaluate (cfg : EvaluatorConfig) (rule : Rule)
    (inputs : VarMap) : Except EvalErr EvaluationContext :=
  wrapRuleErr (do
    let context ← RuleEvaluator.createContext cfg rule inputs
    match rule.validate with
    | some vrules => runValidation cfg vrules context
    | none => pure ()
    let finalContext ← processFlow cfg rule.flow context
    pure (applyOutputDefaults rule.outputs finalContext))

/-! ## Concrete fixtures used by the verification theorems -/

/-- A comparison object carrying a single eq operator. -/
def cmpEq (v : Value) : ComparisonCondition := { eq := some v }

/-- A comparison object carrying a single gt operator. -/
def cmpGt (v : Value) : ComparisonCondition := { gt := some v }

/-- A table whose single bracket starts at 100, leaving values below the
floor unmatched. -/
def floorTable : Table :=
  { name := "g",
    brackets := [{ min := 100, max := none, rate := 1/10, base_tax := 0 }] }

/-- An evaluation context carrying only the floor table. -/
def floorCtx : EvaluationContext :=
  { inputs := [], constants := [], calculated := [], tables := [("g", floorTable)] }

/-- A two-bracket table whose second bracket starts exactly where the first
one ends, with a base tax that distinguishes the two rows at the shared
boundary value 100. -/
def boundaryTable : Table :=
  { name := "b",
    brackets :=
      [{ min := 0, max := some 100, rate := 0, base_tax := 0 },
       { min := 100, max := none, rate := 0, base_tax := 7 }] }

/-- An evaluation context carrying only the boundary table. -/
def boundaryCtx : EvaluationContext :=
  { inputs := [], constants := [], calculated := [], tables := [("b", boundaryTable)] }

/-- The three-bracket example table of the spec:
`[{0,250000,0,0},{250000,400000,0.20,0},{400000,unbounded,0.25,30000}]`. -/
def exampleTable : Table :=
  { name := "t",
    brackets :=
      [{ min := 0, max := some 250000, rate := 0, base_tax := 0 },
       { min := 250000, max := some 400000, rate := 1/5, base_tax := 0 },
       { min := 400000, max := none, rate := 1/4, base_tax := 30000 }] }

/-- An evaluation context carrying only the spec example table. -/
def exampleCtx : EvaluationContext :=
  { inputs := [], constants := [], calculated := [], tables := [("t", exampleTable)] }

/-- A lookup operation against a named table with a numeric literal operand. -/
def mkLookupOp (tableName : String) (v : ℚ) : Operation :=
  { type := "lookup", target := "out", value := .num v, table := some tableName }

/-- The bracket-selection predicate as the claim states it, with an
EXCLUSIVE upper bound (`min ≤ value` and `value < max`, or unbounded);
written out from the claim text to compare against the source's
`findBracket`, whose bound is inclusive. -/
def claimedBracketMatchesExclusive (b : TableBracket) (value : ℚ) : Bool :=
  decide (b.min ≤ value) &&
    (match b.max with
     | none => true
     | some m => decide (value < m))

/-- The claimed bracket lookup (exclusive upper bound, first match, claimed
result formula), written out from the claim text for comparison. -/
def claimedLookupExclusive (t : Table) (value : ℚ) : Option ℚ :=
  match t.brackets.find? (fun b => claimedBracketMatchesExclusive b value) with
  | none => none
  | some b => some (b.base_tax + (min value (b.max.getD value) - b.min) * b.rate)

/-- The condition `{"$status": {"eq": "MARRIED"}}` of the literal-first
comparison claim. -/
def statusEqMarried : Condition :=
  .comparison [("$status", cmpEq (.str "MARRIED"))]

/-- A context whose inputs carry `status = "MARRIED"`. -/
def marriedCtx : EvaluationContext :=
  { inputs := [("status", .str "MARRIED")], constants := [], calculated := [],
    tables := [] }

/-- A context whose calculated map binds `b` to the boolean true. -/
def boolLeftCtx : EvaluationContext :=
  { inputs := [], constants := [], calculated := [("b", .bool true)],
    tables := [] }

/-- A context whose calculated map binds `t` to the number 10. -/
def divTargetCtx : EvaluationContext :=
  { inputs := [], constants := [], calculated := [("t", .num 10)],
    tables := [] }

/-- The divide operation `divide(target = t, value = 0)`. -/
def divByZeroOp : Operation :=
  { type := "divide", target := "t", value := .num 0 }

/-- The domain-isolation context of the spec:
inputs x = 1, constants x = 2, calculated x = 3. -/
def isolationCtx : VariableContext :=
  { inputs := [("x", .num 1)], constants := [("x", .num 2)],
    calculated := [("x", .num 3)] }

/-- A context whose only binding is the input `y = 42`. -/
def inputOnlyCtx : EvaluationContext :=
  { inputs := [("y", .num 42)], constants := [], calculated := [],
    tables := [] }

/-- An input schema declaring `opt` as a number with default 5. -/
def optWithDefaultDecl : VariableDeclaration :=
  { type := "number", default := some (.num 5) }

/-- A rule with one defaulted optional input, no outputs and an empty flow,
exercising the default-application path of createContext. -/
def defaultedInputRule : Rule :=
  { inputs := [("opt", optWithDefaultDecl)] }

/-- A number-typed output declaration. -/
def numberOutputDecl : VariableDeclaration := { type := "number" }

/-- A boolean-typed output declaration. -/
def booleanOutputDecl : VariableDeclaration := { type := "boolean" }

/-- A rule declaring a number output that the flow assigns and a boolean
output that it never assigns. -/
def twoOutputsRule : Rule :=
  { outputs := [("liability", numberOutputDecl), ("flag", booleanOutputDecl)],
    flow :=
      [{ name := "s",
         operations := some
           [{ type := "set", target := "liability", value := .num 42 }] }] }

/-- The context reached by the two-outputs rule's flow before output
defaulting: liability assigned, flag never assigned. -/
def c5Mid : EvaluationContext :=
  { inputs := [], constants := [], calculated := [("liability", .num 42)],
    tables := [] }

/-- The empty initial context produced by createContext for the two-outputs
rule on empty inputs. -/
def emptyCtx : EvaluationContext :=
  { inputs := [], constants := [], calculated := [], tables := [] }

/-- A case list fixture: two guarded cases on the input `inc` followed by a
guard-less default. -/
def guardedCases : List Case :=
  [{ when := some (.comparison [("$inc", cmpGt (.num 100))]),
     operations := [{ type := "set", target := "r", value := .num 1 }] },
   { when := some (.comparison [("$inc", cmpGt (.num 50))]),
     operations := [{ type := "set", target := "r", value := .num 2 }] },
   { operations := [{ type := "set", target := "r", value := .num 3 }] }]

/-- A cases-only step over the guarded-cases fixture. -/
def guardedStep : FlowStep :=
  { name := "c", cases := some guardedCases }

/-- A context whose only binding is the input `inc` at the given number. -/
def incCtx (q : ℚ) : EvaluationContext :=
  { inputs := [("inc", .num q)], constants := [], calculated := [],
    tables := [] }

/-- The base (built-in) registry the SymbolRegistry constructor builds from
BUILTINS: the six function entries, the built-in constant and the built-in
liability variable. -/
def engineBaseRegistry : Registry :=
  [("diff", { name := "diff", symbolType := .function, source := .builtin, valueType := none }),
   ("sum", { name := "sum", symbolType := .function, source := .builtin, valueType := none }),
   ("max", { name := "max", symbolType := .function, source := .builtin, valueType := none }),
   ("min", { name := "min", symbolType := .function, source := .builtin, valueType := none }),
   ("round", { name := "round", symbolType := .function, source := .builtin, valueType := none }),
   ("lookup", { name := "lookup", symbolType := .function, source := .builtin, valueType := none }),
   ("MAX_TAXABLE_INCOME", { name := "MAX_TAXABLE_INCOME", symbolType := .constant_variable, source := .builtin, valueType := some "number" }),
   ("liability", { name := "liability", symbolType := .calculated_variable, source := .builtin, valueType := some "number" })]

/-! ## Helper lemmas -/

/-- Bind on a successful Except computation. -/
theorem exceptBind_ok {α β : Type} (a : α) (f : α → Except EvalErr β) :
    (Except.ok a >>= f) = f a := rfl

/-- Bind on a failed Except computation. -/
theorem exceptBind_error {α β : Type} (e : EvalErr)
    (f : α → Except EvalErr β) :
    ((Except.error e : Except EvalErr α) >>= f) = Except.error e := rfl

/-- Inserting a binding makes it retrievable. -/
theorem VarMap.find?_insert_self (m : VarMap) (k : String) (v : Value) :
    (m.insert k v).find? k = some v := by
  induction m with
  | nil => simp [VarMap.insert, VarMap.find?]
  | cons p rest ih =>
    by_cases h : p.1 = k
    · simp [VarMap.insert, VarMap.find?, h]
    · simp [VarMap.insert, VarMap.find?, h, ih]

/-- Inserting a binding leaves other keys unchanged. -/
theorem VarMap.find?_insert_other (m : VarMap) (k k' : String) (v : Value)
    (h : k ≠ k') : (m.insert k v).find? k' = m.find? k' := by
  induction m with
  | nil => simp [VarMap.insert, VarMap.find?, h]
  | cons p rest ih =>
    by_cases hp : p.1 = k
    · simp [VarMap.insert, VarMap.find?, hp, h]
    · simp [VarMap.insert, VarMap.find?, hp, ih]

/-- The first-match loop of the Lookup operation is List.find? with the
inclusive bracket predicate. -/
theorem findBracket_eq_find? (bs : List TableBracket) (v : ℚ) :
    findBracket bs v = bs.find? (fun b => bracketMatches b v) := by
  induction bs with
  | nil => rfl
  | cons b rest ih =>
    by_cases h : bracketMatches b v
    · simp [findBracket, List.find?, h]
    · simp [findBracket, List.find?, h, ih]

/-- Registry.set stores the binding at its key. -/
theorem Registry.get?_set_self (reg : Registry) (k : String) (v : SymbolInfo) :
    (reg.set k v).get? k = some v := by
  induction reg with
  | nil => simp [Registry.set, Registry.get?]
  | cons p rest ih =>
    by_cases h : p.1 = k
    · simp [Registry.set, Registry.get?, h]
    · simp [Registry.set, Registry.get?, h, ih]

/-- Registry.set leaves other keys unchanged. -/
theorem Registry.get?_set_other (reg : Registry) (k k' : String)
    (v : SymbolInfo) (h : k ≠ k') : (reg.set k v).get? k' = reg.get? k' := by
  induction reg with
  | nil => simp [Registry.set, Registry.get?, h]
  | cons p rest ih =>
    by_cases hp : p.1 = k
    · simp [Registry.set, Registry.get?, hp, h]
    · simp [Registry.set, Registry.get?, hp, ih]

/-- A successful addSymbol call is a Registry.set of the freshly built
symbol record. -/
theorem addSymbol_ok (reg : Registry) (n : String) (ty : SymbolType)
    (src : SymbolSource) (vt : Option String) (reg' : Registry)
    (h : reg.addSymbol n ty src vt = .ok reg') :
    reg' = reg.set n
      { name := n, symbolType := ty, source := src,
        valueType := if ty = .function then none else some (vt.getD "unknown") } := by
  unfold Registry.addSymbol at h
  cases hg : reg.get? n with
  | none => simp only [hg] at h; simp at h; exact h.symm
  | some existing =>
    simp only [hg] at h
    split_ifs at h with h1 h2 h3
    · injection h with h; subst h; simp [h3]
    · injection h with h; subst h; simp [h3]

/-- Registering one context map leaves every key either untouched or bound
to a symbol of the registered kind. -/
theorem addAllSymbols_get?_or (entries : VarMap) (ty : SymbolType)
    (reg reg' : Registry) (h : addAllSymbols entries ty reg = .ok reg')
    (n : String) :
    reg'.get? n = reg.get? n ∨
      ∃ info, reg'.get? n = some info ∧ info.symbolType = ty := by
  induction entries generalizing reg with
  | nil =>
    unfold addAllSymbols at h
    simp at h
    left; rw [h]
  | cons p rest ih =>
    unfold addAllSymbols at h
    cases ha : Registry.addSymbol reg p.1 ty .context (some (jsTypeof p.2)) with
    | error e => rw [ha, exceptBind_error] at h; exact absurd h (by simp)
    | ok reg₁ =>
      rw [ha, exceptBind_ok] at h
      have hset := addSymbol_ok _ _ _ _ _ _ ha
      rcases ih reg₁ h with hsame | ⟨info, hinfo, hty⟩
      · by_cases hk : p.1 = n
        · right
          rw [hsame, hset, hk]
          exact ⟨_, Registry.get?_set_self _ _ _, rfl⟩
        · left
          rw [hsame, hset, Registry.get?_set_other _ _ _ _ hk]
      · right; exact ⟨info, hinfo, hty⟩

/-- Registering a context map binds each of its keys to a symbol of the
registered kind. -/
theorem addAllSymbols_get?_mem (entries : VarMap) (ty : SymbolType)
    (reg reg' : Registry) (h : addAllSymbols entries ty reg = .ok reg')
    (n : String) (hmem : (entries.find? n).isSome) :
    ∃ info, reg'.get? n = some info ∧ info.symbolType = ty := by
  induction entries generalizing reg with
  | nil => simp [VarMap.find?] at hmem
  | cons p rest ih =>
    unfold addAllSymbols at h
    cases ha : Registry.addSymbol reg p.1 ty .context (some (jsTypeof p.2)) with
    | error e => rw [ha, exceptBind_error] at h; exact absurd h (by simp)
    | ok reg₁ =>
      rw [ha, exceptBind_ok] at h
      have hset := addSymbol_ok _ _ _ _ _ _ ha
      by_cases hk : (VarMap.find? rest n).isSome
      · exact ih reg₁ h hk
      · have hp : p.1 = n := by
          unfold VarMap.find? at hmem
          by_cases he : p.1 = n
          · exact he
          · simp [he] at hmem; exact absurd hmem hk
        rcases addAllSymbols_get?_or rest ty reg₁ reg' h n with hsame | ⟨info, hinfo, hty⟩
        · rw [hsame, hset, hp]
          exact ⟨_, Registry.get?_set_self _ _ _, rfl⟩
        · exact ⟨info, hinfo, hty⟩

/-- validateIdentifierUsage either succeeds or raises an expression error. -/
theorem validateIdentifierUsage_cases (reg : Registry) (n : String) (b : Bool) :
    validateIdentifierUsage reg n b = .ok () ∨
      ∃ m, validateIdentifierUsage reg n b = .error (.exprErr m) := by
  unfold validateIdentifierUsage
  cases reg.get? n with
  | none => left; rfl
  | some symbol =>
    by_cases h : (decide (symbol.symbolType = .function)) ≠ b
    · right
      refine ⟨"Incorrect usage of " ++ n, ?_⟩
      simp [h]
    · left; simp [h]

/-- A symbol of non-function kind passes validation for use as a variable. -/
theorem validateIdentifierUsage_var (reg : Registry) (n : String)
    (info : SymbolInfo) (hget : reg.get? n = some info)
    (hty : info.symbolType ≠ .function) :
    validateIdentifierUsage reg n false = .ok () := by
  unfold validateIdentifierUsage
  simp [hget, hty]

/-- wrapExprErr turns every error into an expression error. -/
theorem wrapExprErr_error (r : Except EvalErr Value) (e : EvalErr)
    (h : r = .error e) : ∃ m, wrapExprErr r = .error (.exprErr m) := by
  subst h
  cases e <;> exact ⟨_, rfl⟩

/-- The public expression evaluate on pre-parsed input reduces to the
registry build followed by the AST walk, wrapped by the catch clause. -/
theorem evaluate_parsed (cfg : EvaluatorConfig) (e : Expr)
    (ctx : VariableContext) :
    ExpressionEvaluator.evaluate cfg (.parsed e) ctx =
      wrapExprErr
        (match buildDynamicRegistry cfg ctx with
         | .ok reg => evaluateExpression cfg reg ctx e
         | .error er => .error er) := by
  unfold ExpressionEvaluator.evaluate
  cases buildDynamicRegistry cfg ctx <;> rfl

/-- A name bound in any of the three context maps is registered under a
variable (non-function) kind after a successful dynamic-registry build. -/
theorem buildDynamicRegistry_var (cfg : EvaluatorConfig)
    (ctx : VariableContext) (reg : Registry)
    (h : buildDynamicRegistry cfg ctx = .ok reg) (n : String)
    (hmem : (ctx.inputs.find? n).isSome ∨ (ctx.constants.find? n).isSome ∨
      (ctx.calculated.find? n).isSome) :
    ∃ info, reg.get? n = some info ∧ info.symbolType ≠ .function := by
  unfold buildDynamicRegistry at h
  cases hb : baseRegistry cfg with
  | error e => rw [hb, exceptBind_error] at h; exact absurd h (by simp)
  | ok reg₀ =>
    rw [hb, exceptBind_ok] at h
    cases h1 : addAllSymbols ctx.inputs .input_variable reg₀ with
    | error e => rw [h1, exceptBind_error] at h; exact absurd h (by simp)
    | ok reg₁ =>
      rw [h1, exceptBind_ok] at h
      cases h2 : addAllSymbols ctx.constants .constant_variable reg₁ with
      | error e => rw [h2, exceptBind_error] at h; exact absurd h (by simp)
      | ok reg₂ =>
        rw [h2, exceptBind_ok] at h
        rcases hmem with hin | hco | hca
        · obtain ⟨i1, hg1, ht1⟩ := addAllSymbols_get?_mem _ _ _ _ h1 n hin
          rcases addAllSymbols_get?_or _ _ _ _ h2 n with hs2 | ⟨i2, hg2, ht2⟩
          · rcases addAllSymbols_get?_or _ _ _ _ h n with hs3 | ⟨i3, hg3, ht3⟩
            · exact ⟨i1, by rw [hs3, hs2, hg1], by rw [ht1]; simp⟩
            · exact ⟨i3, hg3, by rw [ht3]; simp⟩
          · rcases addAllSymbols_get?_or _ _ _ _ h n with hs3 | ⟨i3, hg3, ht3⟩
            · exact ⟨i2, by rw [hs3, hg2], by rw [ht2]; simp⟩
            · exact ⟨i3, hg3, by rw [ht3]; simp⟩
        · obtain ⟨i2, hg2, ht2⟩ := addAllSymbols_get?_mem _ _ _ _ h2 n hco
          rcases addAllSymbols_get?_or _ _ _ _ h n with hs3 | ⟨i3, hg3, ht3⟩
          · exact ⟨i2, by rw [hs3, hg2], by rw [ht2]; simp⟩
          · exact ⟨i3, hg3, by rw [ht3]; simp⟩
        · obtain ⟨i3, hg3, ht3⟩ := addAllSymbols_get?_mem _ _ _ _ h n hca
          exact ⟨i3, hg3, by rw [ht3]; simp⟩

/-- After a successful dynamic-registry build, every name resolves either to
its base (built-in) registry entry or to a context entry of variable kind. -/
theorem buildDynamicRegistry_base_or_var (cfg : EvaluatorConfig)
    (ctx : VariableContext) (reg : Registry)
    (h : buildDynamicRegistry cfg ctx = .ok reg) (n : String) :
    ∃ reg₀, baseRegistry cfg = .ok reg₀ ∧
      (reg.get? n = reg₀.get? n ∨
        ∃ info, reg.get? n = some info ∧ info.symbolType ≠ .function) := by
  unfold buildDynamicRegistry at h
  cases hb : baseRegistry cfg with
  | error e => rw [hb, exceptBind_error] at h; exact absurd h (by simp)
  | ok reg₀ =>
    rw [hb, exceptBind_ok] at h
    cases h1 : addAllSymbols ctx.inputs .input_variable reg₀ with
    | error e => rw [h1, exceptBind_error] at h; exact absurd h (by simp)
    | ok reg₁ =>
      rw [h1, exceptBind_ok] at h
      cases h2 : addAllSymbols ctx.constants .constant_variable reg₁ with
      | error e => rw [h2, exceptBind_error] at h; exact absurd h (by simp)
      | ok reg₂ =>
        rw [h2, exceptBind_ok] at h
        refine ⟨reg₀, rfl, ?_⟩
        rcases addAllSymbols_get?_or _ _ _ _ h n with hs3 | ⟨i3, hg3, ht3⟩
        · rcases addAllSymbols_get?_or _ _ _ _ h2 n with hs2 | ⟨i2, hg2, ht2⟩
          · rcases addAllSymbols_get?_or _ _ _ _ h1 n with hs1 | ⟨i1, hg1, ht1⟩
            · left; rw [hs3, hs2, hs1]
            · right; exact ⟨i1, by rw [hs3, hs2, hg1], by rw [ht1]; simp⟩
          · right; exact ⟨i2, by rw [hs3, hg2], by rw [ht2]; simp⟩
        · right; exact ⟨i3, hg3, by rw [ht3]; simp⟩

/-! ## Claim theorems -/

/-- C1: the claim says a numeric lookup value falling in no bracket raises a
TableLookupError and never yields 0 on BOTH paths. That holds for the Lookup
operation (third conjunct), but the built-in `lookup` expression function
returns a silent 0 instead (first two conjuncts evaluate it below the
table's floor, directly and through a full expression-call evaluation): the
code contradicts the spec's mandated behavior fix and its own
operation-path semantics. -/
theorem C1_lookup_no_bracket :
    lookupCallback
        [("tableName", .scalar (.str "g")), ("value", .scalar (.num 50))]
        { tables := some [("g", floorTable)] } = .ok (.num 0)
    ∧ ExpressionEvaluator.evaluate BUILTINS
        (.parsed (.call "lookup" [.stringLit "g", .numberLit 50]))
        { inputs := [], constants := [], calculated := [],
          tables := some [("g", floorTable)] } = .ok (.num 0)
    ∧ lookupOp BUILTINS (mkLookupOp "g" 50) floorCtx =
        .error (.tableErr "No bracket found for the value in table g") :=
  ⟨rfl, rfl, rfl⟩

/-- C2 counterexample: the claim states an EXCLUSIVE upper bound (first
bracket with min ≤ v and v < max, at v equal to a bounded max the next
bracket is selected). On the boundary table, the claimed algorithm yields 7
at the shared boundary value 100 (second bracket), but the Lookup operation
stores 0 (first bracket, selected because the code's bound check is
`value <= max`, inclusive): the claim as stated is false at this input. -/
theorem C2_counterexample :
    claimedLookupExclusive boundaryTable 100 = some 7
    ∧ (∃ ctx2, lookupOp BUILTINS (mkLookupOp "b" 100) boundaryCtx = .ok ctx2
        ∧ ctx2.calculated.find? "out" = some (.num 0))
    ∧ (0 : ℚ) ≠ 7 := by
  refine ⟨?_, ⟨_, rfl, ?_⟩, by norm_num⟩
  · norm_num [claimedLookupExclusive, boundaryTable,
      claimedBracketMatchesExclusive, List.find?]
  · norm_num [mkLookupOp, boundaryCtx, VarMap.insert, VarMap.find?]

/-- C2 (amended): bracket lookup selects the first bracket with min ≤ v and
(v ≤ max OR max unbounded) — the upper bound is INCLUSIVE — and returns
base_tax + (min(v, max) − min) × rate; for a value exactly equal to a
bounded bracket's max, that same bracket is selected; and for the spec's
three-bracket example table, lookup of 500000 returns 55000. -/
theorem C2_inclusive_bracket_lookup :
    (∀ bs v, findBracket bs v = bs.find? (fun b => bracketMatches b v))
    ∧ (∀ cfg op ctx tableName table v b,
        op.table = some tableName →
        resolveOperandValue cfg op.value ctx = .ok (.num v) →
        ctx.tables.find? tableName = some table →
        findBracket table.brackets v = some b →
        lookupOp cfg op ctx = .ok
          { ctx with calculated := ctx.calculated.insert op.target (.num (b.base_tax + (min v (b.max.getD v) - b.min) * b.rate)) })
    ∧ (∀ cfg op ctx tableName table v,
        op.table = some tableName →
        resolveOperandValue cfg op.value ctx = .ok (.num v) →
        ctx.tables.find? tableName = some table →
        findBracket table.brackets v = none →
        lookupOp cfg op ctx =
          .error (.tableErr ("No bracket found for the value in table " ++
            tableName)))
    ∧ (∀ (b : TableBracket) rest v m, b.max = some m → b.min ≤ v → v ≤ m →
        findBracket (b :: rest) v = some b)
    ∧ (∃ ctx2, lookupOp BUILTINS (mkLookupOp "t" 500000) exampleCtx = .ok ctx2
        ∧ ctx2.calculated.find? "out" = some (.num 55000)) := by
  refine ⟨findBracket_eq_find?, ?_, ?_, ?_, ⟨_, rfl, ?_⟩⟩
  · intro cfg op ctx tableName table v b ht hres htab hfind
    unfold lookupOp
    rw [hres, exceptBind_ok, ht]
    simp only [Option.getD_some, htab, hfind]
    cases hmax : b.max with
    | none => simp [hmax, min_self]
    | some m => simp [hmax]
  · intro cfg op ctx tableName table v ht hres htab hfind
    unfold lookupOp
    rw [hres, exceptBind_ok, ht]
    simp only [Option.getD_some, htab, hfind]
  · intro b rest v m hmax hlo hhi
    unfold findBracket
    have : bracketMatches b v = true := by
      unfold bracketMatches
      rw [hmax]
      simp [hlo, hhi]
    simp [this]
  · norm_num [mkLookupOp, exampleCtx, VarMap.insert, VarMap.find?]

/-- Witness for C2 (amended): the general bracket-selection conclusion at
the boundary table and value 100 (first bracket, inclusive bound). -/
theorem C2_inclusive_bracket_lookup_witness :
    lookupOp BUILTINS (mkLookupOp "b" 100) boundaryCtx =
      .ok { boundaryCtx with calculated :=
        (boundaryCtx.calculated.insert "out"
          (.num (0 + (min 100 ((some (100:ℚ)).getD 100) - 0) * 0))) } :=
  C2_inclusive_bracket_lookup.2.1 BUILTINS (mkLookupOp "b" 100) boundaryCtx
    "b" boundaryTable 100
    { min := 0, max := some 100, rate := 0, base_tax := 0 }
    rfl rfl rfl rfl

/-- C3: the claim (and the repository's own literal-comparison tests) says a
string right-hand comparison value is treated as a literal, so
`{"$status": {"eq": "MARRIED"}}` with inputs.status = "MARRIED" evaluates
to true. The code instead raises: the left side `$status` resolves to a
string, which the conditional evaluator categorically rejects (first
conjunct), and the right side "MARRIED" is re-resolved through the
expression evaluator as a bare variable reference rather than kept literal
(second conjunct). -/
theorem C3_literal_comparison_raises :
    ConditionalEvaluator.evaluate BUILTINS statusEqMarried marriedCtx =
      .error (.ruleErr ("Conditional evaluation failed: " ++
        "String values are not allowed in conditional expressions: MARRIED"))
    ∧ resolveComparisonValue BUILTINS (.str "MARRIED") marriedCtx =
      .error (.ruleErr
        "Calculated variable MARRIED not found in context or built-in variables") :=
  ⟨by decide, by decide⟩

/-- C6 counterexample: the claim says ordering comparisons raise a
type-mismatch error when EITHER side is not a number. With the left side
resolving to the boolean true and operator gt, the code returns false
without error (the ordering block is guarded by a left-side number check
that silently falls through). -/
theorem C6_counterexample :
    ConditionalEvaluator.evaluate BUILTINS
      (.comparison [("b", cmpGt (.num 5))]) boolLeftCtx = .ok false := by decide

/-- C6 (amended): for the ordering operators, a type-mismatch error is
raised when the LEFT resolved side is a number and the right side resolves
to a non-number (stated for each of lt, lte, gt, gte); when the left side is
not a number, the comparison evaluates to false without error (provided no
eq/ne key is present); eq and ne accept any pair of scalar types under JS
strict equality. -/
theorem C6_ordering_type_mismatch :
    (∀ cfg ctx q rhs w, resolveComparisonValue cfg rhs ctx = .ok w →
      (∀ c, w ≠ .num c) →
      evaluateComparison cfg (.num q) { lt := some rhs } ctx =
        .error (.ruleErr ("Cannot compare number with " ++ jsTypeof w ++ " using lt"))
      ∧ evaluateComparison cfg (.num q) { lte := some rhs } ctx =
        .error (.ruleErr ("Cannot compare number with " ++ jsTypeof w ++ " using lte"))
      ∧ evaluateComparison cfg (.num q) { gt := some rhs } ctx =
        .error (.ruleErr ("Cannot compare number with " ++ jsTypeof w ++ " using gt"))
      ∧ evaluateComparison cfg (.num q) { gte := some rhs } ctx =
        .error (.ruleErr ("Cannot compare number with " ++ jsTypeof w ++ " using gte")))
    ∧ (∀ cfg ctx v cmp, cmp.eq = none → cmp.ne = none →
        (∀ q, v ≠ Value.num q) →
        evaluateComparison cfg v cmp ctx = .ok false)
    ∧ (∀ cfg ctx v rhs w, resolveComparisonValue cfg rhs ctx = .ok w →
        evaluateComparison cfg v { eq := some rhs } ctx =
          .ok (decide (v = w)))
    ∧ (∀ cfg ctx v rhs w, resolveComparisonValue cfg rhs ctx = .ok w →
        evaluateComparison cfg v { ne := some rhs } ctx =
          .ok (decide (v ≠ w))) := by
  refine ⟨?_, ?_, ?_, ?_⟩
  · intro cfg ctx q rhs w hres hw
    refine ⟨?_, ?_, ?_, ?_⟩ <;>
      cases w with
      | num c => exact absurd rfl (hw c)
      | bool b => unfold evaluateComparison; simp [hres, exceptBind_ok]
      | str s => unfold evaluateComparison; simp [hres, exceptBind_ok]
  · intro cfg ctx v cmp heq hne hv
    unfold evaluateComparison
    rw [heq, hne]
    cases v with
    | num q => exact absurd rfl (hv q)
    | bool b => rfl
    | str s => rfl
  · intro cfg ctx v rhs w hres
    unfold evaluateComparison
    simp only [hres, exceptBind_ok]
    rfl
  · intro cfg ctx v rhs w hres
    unfold evaluateComparison
    simp only [hres, exceptBind_ok]
    rfl

/-- Witness for C6 (amended): at a numeric left side 7 and boolean right
side, gt raises a rule error; and a boolean left side with gt gives false. -/
theorem C6_ordering_type_mismatch_witness :
    evaluateComparison BUILTINS (.num 7) { gt := some (.bool true) }
      boolLeftCtx = .error (.ruleErr
        ("Cannot compare number with " ++ jsTypeof (.bool true) ++ " using gt"))
    ∧ evaluateComparison BUILTINS (.bool true) (cmpGt (.num 5)) boolLeftCtx =
      .ok false :=
  ⟨(C6_ordering_type_mismatch.1 BUILTINS boolLeftCtx 7 (.bool true)
      (.bool true) rfl (fun c h => by cases h)).2.2.1,
   C6_ordering_type_mismatch.2.1 BUILTINS boolLeftCtx (.bool true)
      (cmpGt (.num 5)) rfl rfl (fun q h => by cases h)⟩

/-- C7: a divide operation whose operand resolves to 0 raises an error and
produces no context update (the operation returns an error value, so no
partial write is observable); when the current target value is numeric the
error is exactly the DivisionByZero operation error, and the registry
dispatches the `divide` type to this operation function. -/
theorem C7_divide_by_zero :
    ∀ cfg op ctx, resolveOperandValue cfg op.value ctx = .ok (.num 0) →
      (∃ e, divideOp cfg op ctx = .error e)
      ∧ (∀ cur, ctx.calculated.find? op.target = some (.num cur) →
          divideOp cfg op ctx = .error (.opErr "Division by zero"))
      ∧ (op.type = "divide" → executeOperation cfg op ctx = divideOp cfg op ctx) := by
  intro cfg op ctx hres
  refine ⟨?_, ?_, ?_⟩
  · unfold divideOp
    rw [hres, exceptBind_ok]
    cases hcur : ctx.calculated.find? op.target with
    | none => exact ⟨_, rfl⟩
    | some v =>
      cases v with
      | num cur => simp
      | bool b => exact ⟨_, rfl⟩
      | str s => exact ⟨_, rfl⟩
  · intro cur hcur
    unfold divideOp
    rw [hres, exceptBind_ok, hcur]
    simp
  · intro hty
    unfold executeOperation
    rw [hty]
    rfl

/-- Witness for C7: the spec's example divide(target = t, value = 0) with
current t = 10 raises DivisionByZero through the registry dispatch. -/
theorem C7_divide_by_zero_witness :
    executeOperation BUILTINS divByZeroOp divTargetCtx =
      .error (.opErr "Division by zero") := by
  have h := C7_divide_by_zero BUILTINS divByZeroOp divTargetCtx rfl
  rw [h.2.2 rfl]
  exact h.2.1 10 rfl

/-- C10: the conditional evaluator resolves an unprefixed left-hand name by
direct map lookup in the order calculated, then inputs, then constants
(first three conjuncts), before any expression-evaluation fallback — so a
bare name present only in inputs resolves inside a condition (fifth
conjunct), even though the expression language resolves a bare identifier in
the calculated domain only and raises an unresolved-reference error for it
(fourth and sixth conjuncts). -/
theorem C10_condition_name_priority :
    (∀ cfg ctx n v, ctx.calculated.find? n = some v →
        resolveVariableValue cfg n ctx = .ok v)
    ∧ (∀ cfg ctx n v, ctx.calculated.find? n = none →
        ctx.inputs.find? n = some v → resolveVariableValue cfg n ctx = .ok v)
    ∧ (∀ cfg ctx n v, ctx.calculated.find? n = none →
        ctx.inputs.find? n = none → ctx.constants.find? n = some v →
        resolveVariableValue cfg n ctx = .ok v)
    ∧ (∀ (ctx : EvaluationContext) n,
        Parser.parse n = .ok (.calculatedVar n) →
        ctx.calculated.find? n = none →
        BUILTINS.builtinVariables.find? n = none →
        ∃ m, ExpressionEvaluator.evaluate BUILTINS (.text n)
          ctx.toVariableContext = .error (.exprErr m))
    ∧ resolveVariableValue BUILTINS "y" inputOnlyCtx = .ok (.num 42)
    ∧ (∃ m, ExpressionEvaluator.evaluate BUILTINS (.text "y")
        inputOnlyCtx.toVariableContext = .error (.exprErr m)) := by
  refine ⟨?_, ?_, ?_, ?_, by decide, ?_⟩
  · intro cfg ctx n v hc
    unfold resolveVariableValue
    rw [hc]
  · intro cfg ctx n v hc hi
    unfold resolveVariableValue
    rw [hc, hi]
  · intro cfg ctx n v hc hi hco
    unfold resolveVariableValue
    rw [hc, hi, hco]
  · intro ctx n hp hc hb
    unfold ExpressionEvaluator.evaluate
    show ∃ m, wrapExprErr (Parser.parse n >>= fun e =>
      buildDynamicRegistry BUILTINS ctx.toVariableContext >>= fun reg =>
      evaluateExpression BUILTINS reg ctx.toVariableContext e) =
      .error (.exprErr m)
    rw [hp, exceptBind_ok]
    cases hreg : buildDynamicRegistry BUILTINS ctx.toVariableContext with
    | error e =>
      rw [exceptBind_error]
      exact wrapExprErr_error _ _ rfl
    | ok reg =>
      rw [exceptBind_ok]
      show ∃ m, wrapExprErr
        (evaluateCalculatedVariable BUILTINS reg ctx.toVariableContext n) =
        .error (.exprErr m)
      unfold evaluateCalculatedVariable
      rcases validateIdentifierUsage_cases reg n false with hok | ⟨m, herr⟩
      · rw [hok, exceptBind_ok]
        have hc' : VarMap.find? ctx.toVariableContext.calculated n = none := hc
        rw [hc', hb]
        exact ⟨_, rfl⟩
      · rw [herr, exceptBind_error]
        exact ⟨m, rfl⟩
  · exact ⟨"Calculated variable y not found in context or built-in variables",
      by decide⟩

/-- Witness for C10: in a context whose only binding is the input y = 42,
the conditional evaluator resolves the bare name y to 42 through the
inputs-map fallback. -/
theorem C10_condition_name_priority_witness :
    resolveVariableValue BUILTINS "y" inputOnlyCtx = .ok (.num 42) :=
  C10_condition_name_priority.2.1 BUILTINS inputOnlyCtx "y" (.num 42) rfl rfl

/-- C4: for a cases-only step, the case loop receives the case list
unchanged (first conjunct); a guard-less case at the head runs its
operations and the loop stops, ignoring every later case including a later
default (second conjunct); a head case whose guard evaluates to true does
the same (third conjunct); a head case whose guard evaluates to false is
skipped in favor of the rest, so guards run top to bottom (fourth
conjunct); and if every case has a guard that evaluates to false the step
is a no-op that leaves the context unchanged and raises no error (fifth
conjunct). -/
theorem C4_first_matching_case :
    (∀ cfg step ctx cases, step.operations = none → step.cases = some cases →
        processFlowStep cfg step ctx = processCases cfg cases ctx)
    ∧ (∀ cfg (c : Case) rest ctx, c.when = none →
        processCases cfg (c :: rest) ctx = runOperations cfg c.operations ctx)
    ∧ (∀ cfg (c : Case) rest ctx cond, c.when = some cond →
        ConditionalEvaluator.evaluate cfg cond ctx = .ok true →
        processCases cfg (c :: rest) ctx = runOperations cfg c.operations ctx)
    ∧ (∀ cfg (c : Case) rest ctx cond, c.when = some cond →
        ConditionalEvaluator.evaluate cfg cond ctx = .ok false →
        processCases cfg (c :: rest) ctx = processCases cfg rest ctx)
    ∧ (∀ cfg cases ctx,
        (∀ c ∈ cases, ∃ cond, c.when = some cond ∧
          ConditionalEvaluator.evaluate cfg cond ctx = .ok false) →
        processCases cfg cases ctx = .ok ctx) := by
  refine ⟨?_, ?_, ?_, ?_, ?_⟩
  · intro cfg step ctx cases hops hcases
    unfold processFlowStep
    rw [hops, hcases]
    rfl
  · intro cfg c rest ctx hwhen
    have h1 : processCases cfg (c :: rest) ctx =
        (match c.when with
         | none => runOperations cfg c.operations ctx
         | some cond => ConditionalEvaluator.evaluate cfg cond ctx >>= fun b =>
             if b then runOperations cfg c.operations ctx
             else processCases cfg rest ctx) := rfl
    rw [h1, hwhen]
  · intro cfg c rest ctx cond hwhen heval
    have h1 : processCases cfg (c :: rest) ctx =
        (match c.when with
         | none => runOperations cfg c.operations ctx
         | some cond => ConditionalEvaluator.evaluate cfg cond ctx >>= fun b =>
             if b then runOperations cfg c.operations ctx
             else processCases cfg rest ctx) := rfl
    rw [h1, hwhen]
    show (ConditionalEvaluator.evaluate cfg cond ctx >>= fun b =>
      if b then runOperations cfg c.operations ctx
      else processCases cfg rest ctx) = runOperations cfg c.operations ctx
    rw [heval, exceptBind_ok]
    simp
  · intro cfg c rest ctx cond hwhen heval
    have h1 : processCases cfg (c :: rest) ctx =
        (match c.when with
         | none => runOperations cfg c.operations ctx
         | some cond => ConditionalEvaluator.evaluate cfg cond ctx >>= fun b =>
             if b then runOperations cfg c.operations ctx
             else processCases cfg rest ctx) := rfl
    rw [h1, hwhen]
    show (ConditionalEvaluator.evaluate cfg cond ctx >>= fun b =>
      if b then runOperations cfg c.operations ctx
      else processCases cfg rest ctx) = processCases cfg rest ctx
    rw [heval, exceptBind_ok]
    simp
  · intro cfg cases ctx hall
    induction cases with
    | nil => rfl
    | cons c rest ih =>
      obtain ⟨cond, hwhen, heval⟩ := hall c (by simp)
      have h1 : processCases cfg (c :: rest) ctx =
          (match c.when with
           | none => runOperations cfg c.operations ctx
           | some cond => ConditionalEvaluator.evaluate cfg cond ctx >>= fun b =>
               if b then runOperations cfg c.operations ctx
               else processCases cfg rest ctx) := rfl
      rw [h1, hwhen]
      show (ConditionalEvaluator.evaluate cfg cond ctx >>= fun b =>
        if b then runOperations cfg c.operations ctx
        else processCases cfg rest ctx) = .ok ctx
      rw [heval, exceptBind_ok]
      simp only [Bool.false_eq_true, if_false]
      show processCases cfg rest ctx = .ok ctx
      exact ih (fun c' hc' => hall c' (by simp [hc']))

/-- An existing calculated binding survives the output-defaulting fold. -/
theorem foldOutputs_preserves (outputs : List (String × VariableDeclaration))
    (m : VarMap) (n : String) (v : Value) (h : m.find? n = some v) :
    (outputs.foldl outputDefaultStep m).find? n = some v := by
  induction outputs generalizing m with
  | nil => exact h
  | cons p rest ih =>
    show (rest.foldl outputDefaultStep (outputDefaultStep m p)).find? n = some v
    apply ih
    unfold outputDefaultStep
    by_cases hm : m.mem p.1
    · simp only [hm, if_true]
      exact h
    · simp only [hm, Bool.false_eq_true, if_false]
      by_cases hk : p.1 = n
      · subst hk
        unfold VarMap.mem at hm
        rw [h] at hm
        simp at hm
      · rw [VarMap.find?_insert_other _ _ _ _ hk]
        exact h

/-- A declared output absent from the calculated map is inserted with its
type's default by the output-defaulting fold (keys assumed unique, as JS
object keys are). -/
theorem foldOutputs_defaults (outputs : List (String × VariableDeclaration))
    (m : VarMap) (n : String) (decl : VariableDeclaration)
    (hnd : (outputs.map Prod.fst).Nodup) (hmem : (n, decl) ∈ outputs)
    (habs : m.find? n = none) :
    (outputs.foldl outputDefaultStep m).find? n =
      some (if decl.type = "boolean" then Value.bool false else Value.num 0) := by
  induction outputs generalizing m with
  | nil => cases hmem
  | cons p rest ih =>
    show (rest.foldl outputDefaultStep (outputDefaultStep m p)).find? n = _
    rcases List.mem_cons.mp hmem with heq | hrest
    · have hp1 : p.1 = n := by rw [← heq]
      have hp2 : p.2 = decl := by rw [← heq]
      apply foldOutputs_preserves
      unfold outputDefaultStep
      have hm : m.mem p.1 = false := by
        unfold VarMap.mem
        rw [hp1, habs]
        rfl
      rw [hm]
      simp only [Bool.false_eq_true, if_false]
      rw [hp1, hp2]
      exact VarMap.find?_insert_self m n _
    · have hnd' : (rest.map Prod.fst).Nodup := by
        rw [List.map_cons, List.nodup_cons] at hnd
        exact hnd.2
      have hne : p.1 ≠ n := by
        intro hkeq
        have hn : n ∈ rest.map Prod.fst :=
          List.mem_map.mpr ⟨(n, decl), hrest, rfl⟩
        rw [List.map_cons, List.nodup_cons] at hnd
        exact hnd.1 (hkeq ▸ hn)
      refine ih (outputDefaultStep m p) hnd' hrest ?_
      unfold outputDefaultStep
      by_cases hm : m.mem p.1
      · simp only [hm, if_true]
        exact habs
      · simp only [hm, Bool.false_eq_true, if_false]
        rw [VarMap.find?_insert_other _ _ _ _ hne]
        exact habs

/-- C5: whenever context creation, validation and flow execution all
succeed, the whole evaluation succeeds with the flow's final context passed
through the output-defaulting loop, and every declared output name is
present in the result — carrying the value the flow assigned, or the
type's default (false for boolean outputs, 0 otherwise) when the flow never
assigned it — so the declared-output result map is total. Output names are
assumed distinct, as JS object keys are. -/
theorem C5_outputs_total :
    ∀ cfg rule inputs ctx0 mid,
      (rule.outputs.map Prod.fst).Nodup →
      RuleEvaluator.createContext cfg rule inputs = .ok ctx0 →
      (match rule.validate with
       | some vrules => runValidation cfg vrules ctx0
       | none => .ok ()) = .ok () →
      processFlow cfg rule.flow ctx0 = .ok mid →
      RuleEvaluator.evaluate cfg rule inputs =
        .ok (applyOutputDefaults rule.outputs mid)
      ∧ ∀ n decl, (n, decl) ∈ rule.outputs →
          (applyOutputDefaults rule.outputs mid).calculated.find? n =
            some ((mid.calculated.find? n).getD
              (if decl.type = "boolean" then Value.bool false else Value.num 0)) := by
  intro cfg rule inputs ctx0 mid hnd h1 h2 h3
  constructor
  · unfold RuleEvaluator.evaluate
    rw [h1, exceptBind_ok]
    cases hv : rule.validate with
    | none =>
      simp only [h3, exceptBind_ok]
      rfl
    | some vrules =>
      rw [hv] at h2
      have h2x : runValidation cfg vrules ctx0 = .ok () := h2
      simp only [h2x, h3, exceptBind_ok]
      rfl
  · intro n decl hmem
    show (rule.outputs.foldl outputDefaultStep mid.calculated).find? n = _
    cases hfind : mid.calculated.find? n with
    | some v =>
      rw [Option.getD_some]
      exact foldOutputs_preserves _ _ _ _ hfind
    | none =>
      rw [Option.getD_none]
      exact foldOutputs_defaults _ _ _ _ hnd hmem hfind

/-- Witness for C5: the two-outputs rule on empty inputs evaluates to the
defaulted context, and the never-assigned boolean output flag is present
with value false. -/
theorem C5_outputs_total_witness :
    RuleEvaluator.evaluate BUILTINS twoOutputsRule [] =
      .ok (applyOutputDefaults twoOutputsRule.outputs c5Mid)
    ∧ (applyOutputDefaults twoOutputsRule.outputs c5Mid).calculated.find?
        "flag" = some (Value.bool false) := by
  have h := C5_outputs_total BUILTINS twoOutputsRule [] emptyCtx c5Mid
    (by decide) (by decide) rfl (by decide)
  refine ⟨h.1, ?_⟩
  have h2 := h.2 "flag" booleanOutputDecl (by simp [twoOutputsRule])
  rw [h2]
  decide

/-- Every operation function of the registry leaves the inputs map of the
context untouched on success (each returns the context with only the
calculated field replaced). -/
theorem operationFn_preserves_inputs (cfg : EvaluatorConfig) (op : Operation)
    (ctx ctx' : EvaluationContext)
    (f : OperationFunction) (hf : ∃ nm, (nm, f) ∈ OPERATION_REGISTRY)
    (h : f cfg op ctx = .ok ctx') : ctx'.inputs = ctx.inputs := by
  obtain ⟨nm, hmem⟩ := hf
  simp only [OPERATION_REGISTRY, List.mem_cons, List.not_mem_nil, or_false,
    Prod.mk.injEq] at hmem
  rcases hmem with ⟨-, hfn⟩ | ⟨-, hfn⟩ | ⟨-, hfn⟩ | ⟨-, hfn⟩ | ⟨-, hfn⟩ |
    ⟨-, hfn⟩ | ⟨-, hfn⟩ | ⟨-, hfn⟩ | ⟨-, hfn⟩ <;> subst hfn
  · unfold setOperation at h
    cases hr : resolveOperandValue cfg op.value ctx with
    | error e => rw [hr, exceptBind_error] at h; injection h
    | ok v =>
      rw [hr, exceptBind_ok] at h
      injection h with h
      rw [← h]
  · unfold addOperation at h
    cases hr : resolveOperandValue cfg op.value ctx with
    | error e => rw [hr, exceptBind_error] at h; injection h
    | ok v =>
      rw [hr, exceptBind_ok] at h
      cases hc : ctx.calculated.find? op.target <;> rw [hc] at h
      · injection h
      · rename_i cv
        cases cv <;> cases v <;> (try split at h) <;> (try split at h) <;>
          first
            | (injection h with h; rw [← h])
            | injection h
  · unfold subtractOp at h
    cases hr : resolveOperandValue cfg op.value ctx with
    | error e => rw [hr, exceptBind_error] at h; injection h
    | ok v =>
      rw [hr, exceptBind_ok] at h
      cases hc : ctx.calculated.find? op.target <;> rw [hc] at h
      · injection h
      · rename_i cv
        cases cv <;> cases v <;> (try split at h) <;> (try split at h) <;>
          first
            | (injection h with h; rw [← h])
            | injection h
  · unfold subtractOp at h
    cases hr : resolveOperandValue cfg op.value ctx with
    | error e => rw [hr, exceptBind_error] at h; injection h
    | ok v =>
      rw [hr, exceptBind_ok] at h
      cases hc : ctx.calculated.find? op.target <;> rw [hc] at h
      · injection h
      · rename_i cv
        cases cv <;> cases v <;> (try split at h) <;> (try split at h) <;>
          first
            | (injection h with h; rw [← h])
            | injection h
  · unfold multiplyOp at h
    cases hr : resolveOperandValue cfg op.value ctx with
    | error e => rw [hr, exceptBind_error] at h; injection h
    | ok v =>
      rw [hr, exceptBind_ok] at h
      cases hc : ctx.calculated.find? op.target <;> rw [hc] at h
      · injection h
      · rename_i cv
        cases cv <;> cases v <;> (try split at h) <;> (try split at h) <;>
          first
            | (injection h with h; rw [← h])
            | injection h
  · unfold divideOp at h
    cases hr : resolveOperandValue cfg op.value ctx with
    | error e => rw [hr, exceptBind_error] at h; injection h
    | ok v =>
      rw [hr, exceptBind_ok] at h
      cases hc : ctx.calculated.find? op.target <;> rw [hc] at h
      · injection h
      · rename_i cv
        cases cv <;> cases v <;> (try split at h) <;> (try split at h) <;>
          first
            | (injection h with h; rw [← h])
            | injection h
  · unfold minOp at h
    cases hr : resolveOperandValue cfg op.value ctx with
    | error e => rw [hr, exceptBind_error] at h; injection h
    | ok v =>
      rw [hr, exceptBind_ok] at h
      cases hc : ctx.calculated.find? op.target <;> rw [hc] at h
      · injection h
      · rename_i cv
        cases cv <;> cases v <;> (try split at h) <;> (try split at h) <;>
          first
            | (injection h with h; rw [← h])
            | injection h
  · unfold maxOp at h
    cases hr : resolveOperandValue cfg op.value ctx with
    | error e => rw [hr, exceptBind_error] at h; injection h
    | ok v =>
      rw [hr, exceptBind_ok] at h
      cases hc : ctx.calculated.find? op.target <;> rw [hc] at h
      · injection h
      · rename_i cv
        cases cv <;> cases v <;> (try split at h) <;> (try split at h) <;>
          first
            | (injection h with h; rw [← h])
            | injection h
  · unfold lookupOp at h
    cases hr : resolveOperandValue cfg op.value ctx with
    | error e => rw [hr, exceptBind_error] at h; injection h
    | ok v =>
      rw [hr, exceptBind_ok] at h
      repeat' split at h
      all_goals try (unfold_let at h; repeat' split at h)
      all_goals
        first
          | (injection h with h; rw [← h])
          | injection h

/-- executeOperation leaves the inputs map untouched on success. -/
theorem executeOperation_preserves_inputs (cfg : EvaluatorConfig)
    (op : Operation) (ctx ctx' : EvaluationContext)
    (h : executeOperation cfg op ctx = .ok ctx') : ctx'.inputs = ctx.inputs := by
  unfold executeOperation at h
  cases hf : operationFor? op.type with
  | none => rw [hf] at h; exact absurd h (by simp)
  | some f =>
    rw [hf] at h
    unfold operationFor? at hf
    cases hfind : OPERATION_REGISTRY.find? (fun p => p.1 = op.type) with
    | none => rw [hfind] at hf; exact absurd hf (by simp)
    | some pr =>
      rw [hfind] at hf
      injection hf with hf
      exact operationFn_preserves_inputs cfg op ctx ctx' f
        ⟨pr.1, by rw [← hf]; exact List.mem_of_find?_eq_some hfind⟩ h

/-- runOperations leaves the inputs map untouched on success. -/
theorem runOperations_preserves_inputs (cfg : EvaluatorConfig)
    (ops : List Operation) (ctx ctx' : EvaluationContext)
    (h : runOperations cfg ops ctx = .ok ctx') : ctx'.inputs = ctx.inputs := by
  induction ops generalizing ctx with
  | nil =>
    injection h with h
    rw [← h]
  | cons op rest ih =>
    have h1 : runOperations cfg (op :: rest) ctx =
        (executeOperation cfg op ctx >>= fun ctx2 =>
          runOperations cfg rest ctx2) := rfl
    rw [h1] at h
    cases he : executeOperation cfg op ctx with
    | error e => rw [he, exceptBind_error] at h; exact absurd h (by simp)
    | ok ctx2 =>
      rw [he, exceptBind_ok] at h
      rw [ih ctx2 h, executeOperation_preserves_inputs cfg op ctx ctx2 he]

/-- The case loop leaves the inputs map untouched on success. -/
theorem processCases_preserves_inputs (cfg : EvaluatorConfig)
    (cases_ : List Case) (ctx ctx' : EvaluationContext)
    (h : processCases cfg cases_ ctx = .ok ctx') : ctx'.inputs = ctx.inputs := by
  induction cases_ with
  | nil =>
    injection h with h
    rw [← h]
  | cons c rest ih =>
    have h1 : processCases cfg (c :: rest) ctx =
        (match c.when with
         | none => runOperations cfg c.operations ctx
         | some cond => ConditionalEvaluator.evaluate cfg cond ctx >>= fun b =>
             if b then runOperations cfg c.operations ctx
             else processCases cfg rest ctx) := rfl
    rw [h1] at h
    cases hw : c.when with
    | none =>
      rw [hw] at h
      exact runOperations_preserves_inputs cfg c.operations ctx ctx' h
    | some cond =>
      rw [hw] at h
      replace h : (ConditionalEvaluator.evaluate cfg cond ctx >>= fun b =>
        if b then runOperations cfg c.operations ctx
        else processCases cfg rest ctx) = .ok ctx' := h
      cases hc : ConditionalEvaluator.evaluate cfg cond ctx with
      | error e => rw [hc, exceptBind_error] at h; injection h
      | ok b =>
        rw [hc, exceptBind_ok] at h
        cases b with
        | true =>
          exact runOperations_preserves_inputs cfg c.operations ctx ctx' h
        | false => exact ih h

/-- processFlowStep leaves the inputs map untouched on success. -/
theorem processFlowStep_preserves_inputs (cfg : EvaluatorConfig)
    (step : FlowStep) (ctx ctx' : EvaluationContext)
    (h : processFlowStep cfg step ctx = .ok ctx') : ctx'.inputs = ctx.inputs := by
  unfold processFlowStep at h
  cases ho : step.operations with
  | none =>
    rw [ho] at h
    replace h : (match step.cases with
      | some cases_ => processCases cfg cases_ ctx
      | none => (pure ctx : Except EvalErr EvaluationContext)) = .ok ctx' := h
    cases hc : step.cases with
    | none =>
      rw [hc] at h
      replace h : (Except.ok ctx : Except EvalErr EvaluationContext) =
        .ok ctx' := h
      injection h with h
      rw [← h]
    | some cases_ =>
      rw [hc] at h
      exact processCases_preserves_inputs cfg cases_ ctx ctx' h
  | some ops =>
    rw [ho] at h
    replace h : (runOperations cfg ops ctx >>= fun ctx2 =>
      (match step.cases with
       | some cases_ => processCases cfg cases_ ctx2
       | none => pure ctx2)) = .ok ctx' := h
    cases hr : runOperations cfg ops ctx with
    | error e => rw [hr, exceptBind_error] at h; injection h
    | ok ctx2 =>
      rw [hr, exceptBind_ok] at h
      have h2 := runOperations_preserves_inputs cfg ops ctx ctx2 hr
      cases hc : step.cases with
      | none =>
        rw [hc] at h
        replace h : (Except.ok ctx2 : Except EvalErr EvaluationContext) =
          .ok ctx' := h
        injection h with h
        rw [← h, h2]
      | some cases_ =>
        rw [hc] at h
        rw [processCases_preserves_inputs cfg cases_ ctx2 ctx' h, h2]

/-- processFlow leaves the inputs map untouched on success. -/
theorem processFlow_preserves_inputs (cfg : EvaluatorConfig)
    (steps : List FlowStep) (ctx ctx' : EvaluationContext)
    (h : processFlow cfg steps ctx = .ok ctx') : ctx'.inputs = ctx.inputs := by
  induction steps generalizing ctx with
  | nil =>
    injection h with h
    rw [← h]
  | cons step rest ih =>
    have h1 : processFlow cfg (step :: rest) ctx =
        (processFlowStep cfg step ctx >>= fun ctx2 =>
          processFlow cfg rest ctx2) := rfl
    rw [h1] at h
    cases he : processFlowStep cfg step ctx with
    | error e => rw [he, exceptBind_error] at h; exact absurd h (by simp)
    | ok ctx2 =>
      rw [he, exceptBind_ok] at h
      rw [ih ctx2 h, processFlowStep_preserves_inputs cfg step ctx ctx2 he]

/-- An input declaration without a default leaves the inputs map untouched
when its loop iteration succeeds. -/
theorem processInputDecl_nodefault (cfg : EvaluatorConfig) (c : VarMap)
    (n : String) (d : VariableDeclaration) (st st' : VarMap)
    (hd : d.default = none)
    (h : processInputDecl cfg c n d st = .ok st') : st' = st := by
  unfold processInputDecl at h
  rw [hd] at h
  simp only [Option.isSome_none, Bool.and_false, Bool.false_and,
    Bool.false_eq_true, if_false, Bool.not_false, Bool.and_true] at h
  unfold checkMaximum at h
  unfold checkEnum at h
  repeat' split at h
  all_goals
    first
      | (injection h with h; rw [h])
      | injection h

/-- The whole input loop leaves the inputs map untouched when no declaration
carries a default and the loop succeeds. -/
theorem processInputDecls_nodefault (cfg : EvaluatorConfig) (c : VarMap)
    (decls : List (String × VariableDeclaration)) (st st' : VarMap)
    (hd : ∀ p ∈ decls, (p.2).default = none)
    (h : processInputDecls cfg c decls st = .ok st') : st' = st := by
  induction decls generalizing st with
  | nil =>
    injection h with h
    rw [← h]
  | cons p rest ih =>
    have h1 : processInputDecls cfg c (p :: rest) st =
        (processInputDecl cfg c p.1 p.2 st >>= fun st2 =>
          processInputDecls cfg c rest st2) := rfl
    rw [h1] at h
    cases he : processInputDecl cfg c p.1 p.2 st with
    | error e => rw [he, exceptBind_error] at h; exact absurd h (by simp)
    | ok st2 =>
      rw [he, exceptBind_ok] at h
      have h2 := processInputDecl_nodefault cfg c p.1 p.2 st st2
        (hd p (by simp)) he
      rw [ih st2 (fun q hq => hd q (by simp [hq])) h, h2]

/-- createContext returns the caller's inputs map unchanged when no input
declaration carries a default. -/
theorem createContext_nodefault (cfg : EvaluatorConfig) (rule : Rule)
    (inputs : VarMap) (ctx0 : EvaluationContext)
    (hd : ∀ p ∈ rule.inputs, (p.2).default = none)
    (h : RuleEvaluator.createContext cfg rule inputs = .ok ctx0) :
    ctx0.inputs = inputs := by
  unfold RuleEvaluator.createContext at h
  replace h : (processInputDecls cfg (rule.constants.getD []) rule.inputs
      inputs >>= fun inputsState =>
    resolveRuleTables cfg inputsState (rule.constants.getD [])
      (rule.tables.getD []) >>= fun tablesMap =>
    (Except.ok { inputs := inputsState, constants := rule.constants.getD [], calculated := [], tables := tablesMap } : Except EvalErr EvaluationContext)) = .ok ctx0 := h
  cases hst : processInputDecls cfg (rule.constants.getD []) rule.inputs inputs with
  | error e => rw [hst, exceptBind_error] at h; exact absurd h (by simp)
  | ok st =>
    rw [hst, exceptBind_ok] at h
    cases htm : resolveRuleTables cfg st (rule.constants.getD [])
        (rule.tables.getD []) with
    | error e => rw [htm, exceptBind_error] at h; exact absurd h (by simp)
    | ok tm =>
      rw [htm, exceptBind_ok] at h
      injection h with h
      rw [← h]
      exact processInputDecls_nodefault cfg _ rule.inputs inputs st hd hst

/-- C9 counterexample: the claim says evaluate never modifies the
caller-supplied inputs map, in particular when applying a declared default.
Evaluating the rule with a defaulted input `opt` on an empty inputs map
succeeds with a context whose inputs map — in the source, the very same
object the caller passed in — now carries opt = 5, so the caller observes
the write. -/
theorem C9_counterexample :
    RuleEvaluator.evaluate BUILTINS defaultedInputRule [] =
      .ok { inputs := [("opt", .num 5)], constants := [], calculated := [],
            tables := [] }
    ∧ ([("opt", Value.num 5)] : VarMap) ≠ ([] : VarMap) :=
  ⟨by decide, by simp⟩

/-- C9 (amended): evaluate is deterministic in its arguments, but the
caller-supplied inputs map is shared with the evaluation context and
mutated when a declared default is applied for an absent input
(C9 counterexample); in every run whose rule declares no defaults, a
successful evaluation returns the caller's inputs map unchanged. -/
theorem C9_no_default_no_mutation :
    ∀ cfg rule inputs ctx,
      (∀ p ∈ rule.inputs, (p.2).default = none) →
      RuleEvaluator.evaluate cfg rule inputs = .ok ctx →
      ctx.inputs = inputs := by
  intro cfg rule inputs ctx hd h
  unfold RuleEvaluator.evaluate at h
  cases hc : RuleEvaluator.createContext cfg rule inputs with
  | error e =>
    rw [hc, exceptBind_error] at h
    unfold wrapRuleErr at h
    exact absurd h (by cases e <;> simp)
  | ok ctx0 =>
    rw [hc, exceptBind_ok] at h
    have hbase := createContext_nodefault cfg rule inputs ctx0 hd hc
    cases hv : rule.validate with
    | none =>
      rw [hv] at h
      cases hp : processFlow cfg rule.flow ctx0 with
      | error e =>
        simp only [hp, exceptBind_error] at h
        unfold wrapRuleErr at h
        exact absurd h (by cases e <;> simp)
      | ok mid =>
        simp only [hp, exceptBind_ok] at h
        have : ctx = applyOutputDefaults rule.outputs mid := by
          unfold wrapRuleErr at h
          injection h with h
          rw [h]
        rw [this]
        show mid.inputs = inputs
        rw [processFlow_preserves_inputs cfg rule.flow ctx0 mid hp, hbase]
    | some vrules =>
      rw [hv] at h
      cases hr : runValidation cfg vrules ctx0 with
      | error e =>
        simp only [hr, exceptBind_error] at h
        unfold wrapRuleErr at h
        exact absurd h (by cases e <;> simp)
      | ok u =>
        cases u
        simp only [hr, exceptBind_ok] at h
        cases hp : processFlow cfg rule.flow ctx0 with
        | error e =>
          simp only [hp, exceptBind_error] at h
          unfold wrapRuleErr at h
          exact absurd h (by cases e <;> simp)
        | ok mid =>
          simp only [hp, exceptBind_ok] at h
          have : ctx = applyOutputDefaults rule.outputs mid := by
            unfold wrapRuleErr at h
            injection h with h
            rw [h]
          rw [this]
          show mid.inputs = inputs
          rw [processFlow_preserves_inputs cfg rule.flow ctx0 mid hp, hbase]

/-- Witness for C9 (amended): the two-outputs rule declares no defaults and
evaluates successfully on the empty inputs map, which comes back unchanged. -/
theorem C9_no_default_no_mutation_witness :
    (applyOutputDefaults twoOutputsRule.outputs c5Mid).inputs = ([] : VarMap) :=
  C9_no_default_no_mutation BUILTINS twoOutputsRule []
    (applyOutputDefaults twoOutputsRule.outputs c5Mid)
    (by intro p hp; cases hp)
    (by decide)

/-- The SymbolRegistry constructor on BUILTINS yields exactly the eight
built-in entries. -/
theorem baseRegistry_BUILTINS : baseRegistry BUILTINS = .ok engineBaseRegistry := by
  decide

/-- Validation for use as a variable passes for the two built-in
non-function names after any successful dynamic-registry build over
BUILTINS. -/
theorem buildReg_validate_builtin (ctx : VariableContext) (reg : Registry)
    (h : buildDynamicRegistry BUILTINS ctx = .ok reg) (n : String)
    (hn : n = "MAX_TAXABLE_INCOME" ∨ n = "liability") :
    validateIdentifierUsage reg n false = .ok () := by
  obtain ⟨reg₀, hb0, hor⟩ := buildDynamicRegistry_base_or_var _ _ _ h n
  rw [baseRegistry_BUILTINS] at hb0
  injection hb0 with hb0
  rcases hor with hsame | ⟨info, hget, hne⟩
  · unfold validateIdentifierUsage
    rw [hsame, ← hb0]
    rcases hn with h1 | h1 <;> subst h1 <;> decide
  · exact validateIdentifierUsage_var reg n info hget hne

/-- C8: the three reference forms resolve in disjoint domains with the
stated fallbacks. Input references read only the inputs map (present gives
the bound value, absent is an error with no fallback); constant references
read the constants map, else the built-in constants, absent from both being
an error; calculated references read the calculated map, else the built-in
variables (the predefined liability accumulator defaulting to 0), absent
from both being an error; and on the spec's isolation context with x bound
to 1, 2 and 3 in the three maps, the expressions written as dollar-x,
double-dollar-x and bare x evaluate to 1, 2 and 3. -/
theorem C8_reference_domain_resolution :
    (∀ (ctx : VariableContext) reg n v,
        buildDynamicRegistry BUILTINS ctx = .ok reg →
        ctx.inputs.find? n = some v →
        ExpressionEvaluator.evaluate BUILTINS (.parsed (.inputVar n)) ctx = .ok v)
    ∧ (∀ (ctx : VariableContext) n, ctx.inputs.find? n = none →
        ∃ m, ExpressionEvaluator.evaluate BUILTINS (.parsed (.inputVar n)) ctx =
          .error (.exprErr m))
    ∧ (∀ (ctx : VariableContext) reg n v,
        buildDynamicRegistry BUILTINS ctx = .ok reg →
        ctx.constants.find? n = some v →
        ExpressionEvaluator.evaluate BUILTINS (.parsed (.constantVar n)) ctx = .ok v)
    ∧ (∀ (ctx : VariableContext) reg n v,
        buildDynamicRegistry BUILTINS ctx = .ok reg →
        ctx.constants.find? n = none →
        BUILTINS.builtinConstants.find? n = some v →
        ExpressionEvaluator.evaluate BUILTINS (.parsed (.constantVar n)) ctx = .ok v)
    ∧ (∀ (ctx : VariableContext) n, ctx.constants.find? n = none →
        BUILTINS.builtinConstants.find? n = none →
        ∃ m, ExpressionEvaluator.evaluate BUILTINS (.parsed (.constantVar n)) ctx =
          .error (.exprErr m))
    ∧ (∀ (ctx : VariableContext) reg n v,
        buildDynamicRegistry BUILTINS ctx = .ok reg →
        ctx.calculated.find? n = some v →
        ExpressionEvaluator.evaluate BUILTINS (.parsed (.calculatedVar n)) ctx = .ok v)
    ∧ (∀ (ctx : VariableContext) reg n v,
        buildDynamicRegistry BUILTINS ctx = .ok reg →
        ctx.calculated.find? n = none →
        BUILTINS.builtinVariables.find? n = some v →
        ExpressionEvaluator.evaluate BUILTINS (.parsed (.calculatedVar n)) ctx = .ok v)
    ∧ (∀ (ctx : VariableContext) n, ctx.calculated.find? n = none →
        BUILTINS.builtinVariables.find? n = none →
        ∃ m, ExpressionEvaluator.evaluate BUILTINS (.parsed (.calculatedVar n)) ctx =
          .error (.exprErr m))
    ∧ (ExpressionEvaluator.evaluate BUILTINS (.text "$x") isolationCtx =
        .ok (.num 1)
       ∧ ExpressionEvaluator.evaluate BUILTINS (.text "$$x") isolationCtx =
        .ok (.num 2)
       ∧ ExpressionEvaluator.evaluate BUILTINS (.text "x") isolationCtx =
        .ok (.num 3)) := by
  refine ⟨?_, ?_, ?_, ?_, ?_, ?_, ?_, ?_, by decide, by decide, by decide⟩
  · intro ctx reg n v hb hf
    obtain ⟨info, hget, hne⟩ := buildDynamicRegistry_var BUILTINS ctx reg hb n
      (Or.inl (by rw [hf]; rfl))
    have hval := validateIdentifierUsage_var reg n info hget hne
    rw [evaluate_parsed, hb]
    show wrapExprErr (evaluateInputVariable reg ctx n) = .ok v
    unfold evaluateInputVariable
    rw [hval, exceptBind_ok, hf]
    rfl
  · intro ctx n hf
    rw [evaluate_parsed]
    cases hb : buildDynamicRegistry BUILTINS ctx with
    | error e =>
      show ∃ m, wrapExprErr (.error e) = .error (.exprErr m)
      exact wrapExprErr_error _ e rfl
    | ok reg =>
      show ∃ m, wrapExprErr (evaluateInputVariable reg ctx n) =
        .error (.exprErr m)
      unfold evaluateInputVariable
      rcases validateIdentifierUsage_cases reg n false with hok | ⟨m, herr⟩
      · rw [hok, exceptBind_ok, hf]
        exact ⟨_, rfl⟩
      · rw [herr, exceptBind_error]
        exact ⟨m, rfl⟩
  · intro ctx reg n v hb hf
    obtain ⟨info, hget, hne⟩ := buildDynamicRegistry_var BUILTINS ctx reg hb n
      (Or.inr (Or.inl (by rw [hf]; rfl)))
    have hval := validateIdentifierUsage_var reg n info hget hne
    rw [evaluate_parsed, hb]
    show wrapExprErr (evaluateConstantVariable BUILTINS reg ctx n) = .ok v
    unfold evaluateConstantVariable
    rw [hval, exceptBind_ok, hf]
    rfl
  · intro ctx reg n v hb hnone hbuiltin
    have hn : n = "MAX_TAXABLE_INCOME" := by
      unfold BUILTINS BUILTIN_CONSTANTS at hbuiltin
      unfold VarMap.find? at hbuiltin
      split at hbuiltin
      · rename_i heq
        exact heq.symm
      · exact absurd hbuiltin (by unfold VarMap.find?; simp)
    have hval := buildReg_validate_builtin ctx reg hb n (Or.inl hn)
    rw [evaluate_parsed, hb]
    show wrapExprErr (evaluateConstantVariable BUILTINS reg ctx n) = .ok v
    unfold evaluateConstantVariable
    rw [hval, exceptBind_ok, hnone, hbuiltin]
    rfl
  · intro ctx n hnone hbnone
    rw [evaluate_parsed]
    cases hb : buildDynamicRegistry BUILTINS ctx with
    | error e =>
      show ∃ m, wrapExprErr (.error e) = .error (.exprErr m)
      exact wrapExprErr_error _ e rfl
    | ok reg =>
      show ∃ m, wrapExprErr (evaluateConstantVariable BUILTINS reg ctx n) =
        .error (.exprErr m)
      unfold evaluateConstantVariable
      rcases validateIdentifierUsage_cases reg n false with hok | ⟨m, herr⟩
      · rw [hok, exceptBind_ok, hnone, hbnone]
        exact ⟨_, rfl⟩
      · rw [herr, exceptBind_error]
        exact ⟨m, rfl⟩
  · intro ctx reg n v hb hf
    obtain ⟨info, hget, hne⟩ := buildDynamicRegistry_var BUILTINS ctx reg hb n
      (Or.inr (Or.inr (by rw [hf]; rfl)))
    have hval := validateIdentifierUsage_var reg n info hget hne
    rw [evaluate_parsed, hb]
    show wrapExprErr (evaluateCalculatedVariable BUILTINS reg ctx n) = .ok v
    unfold evaluateCalculatedVariable
    rw [hval, exceptBind_ok, hf]
    rfl
  · intro ctx reg n v hb hnone hbuiltin
    have hn : n = "liability" := by
      unfold BUILTINS BUILTIN_OUTPUT_VARIABLES at hbuiltin
      unfold VarMap.find? at hbuiltin
      split at hbuiltin
      · rename_i heq
        exact heq.symm
      · exact absurd hbuiltin (by unfold VarMap.find?; simp)
    have hval := buildReg_validate_builtin ctx reg hb n (Or.inr hn)
    rw [evaluate_parsed, hb]
    show wrapExprErr (evaluateCalculatedVariable BUILTINS reg ctx n) = .ok v
    unfold evaluateCalculatedVariable
    rw [hval, exceptBind_ok, hnone, hbuiltin]
    rfl
  · intro ctx n hnone hbnone
    rw [evaluate_parsed]
    cases hb : buildDynamicRegistry BUILTINS ctx with
    | error e =>
      show ∃ m, wrapExprErr (.error e) = .error (.exprErr m)
      exact wrapExprErr_error _ e rfl
    | ok reg =>
      show ∃ m, wrapExprErr (evaluateCalculatedVariable BUILTINS reg ctx n) =
        .error (.exprErr m)
      unfold evaluateCalculatedVariable
      rcases validateIdentifierUsage_cases reg n false with hok | ⟨m, herr⟩
      · rw [hok, exceptBind_ok, hnone, hbnone]
        exact ⟨_, rfl⟩
      · rw [herr, exceptBind_error]
        exact ⟨m, rfl⟩

/-- Witness for C8: on the isolation context, the pre-parsed input reference
to x yields the inputs-map value 1, and an input reference to an undeclared
name q on the empty context errors. -/
theorem C8_reference_domain_resolution_witness :
    ExpressionEvaluator.evaluate BUILTINS (.parsed (.inputVar "x"))
      isolationCtx = .ok (.num 1)
    ∧ (∃ m, ExpressionEvaluator.evaluate BUILTINS (.parsed (.inputVar "q"))
        { inputs := [], constants := [], calculated := [] } =
          .error (.exprErr m)) :=
  ⟨C8_reference_domain_resolution.1 isolationCtx
      (List.append engineBaseRegistry
        [("x", { name := "x", symbolType := SymbolType.calculated_variable,
                 source := SymbolSource.context, valueType := some "number" })])
      "x" (.num 1) (by decide) rfl,
   C8_reference_domain_resolution.2.1
      { inputs := [], constants := [], calculated := [] } "q" rfl⟩

/-- Witness for C4: the guarded-cases step fixture at input inc = 70 hands
the case list to the loop; and a case list whose single guard fails at
inc = 10 leaves the context unchanged. -/
theorem C4_first_matching_case_witness :
    processFlowStep BUILTINS guardedStep (incCtx 70) =
      processCases BUILTINS guardedCases (incCtx 70)
    ∧ processCases BUILTINS (guardedCases.take 2) (incCtx 10) =
      .ok (incCtx 10) :=
  ⟨C4_first_matching_case.1 BUILTINS guardedStep (incCtx 70) guardedCases
      rfl rfl,
   C4_first_matching_case.2.2.2.2 BUILTINS (guardedCases.take 2) (incCtx 10)
      (by
        intro c hc
        simp only [guardedCases, cmpGt, List.take, List.mem_cons,
          List.not_mem_nil, or_false] at hc
        rcases hc with h | h <;> subst h
        · exact ⟨_, rfl, by decide⟩
        · exact ⟨_, rfl, by decide⟩)⟩

end OpenTax
